import Mathlib

/-!
Verification development for the BLP2 texture container library
(header/chain parser, palette codec, DXT block codec, truecolor codec,
container decoder and encoder).  Byte buffers are modelled as `List Nat`
whose entries are read modulo 256, matching `Uint8Array` semantics.
JavaScript `Math.round` on nonnegative rationals is `jsRound`; the
source's 32-bit bitwise reads (`>>`, `&` after `ToInt32`) are modelled
by `jsShr`.
-/

namespace Blp

/-- Reads byte `i` of a buffer: out-of-range reads yield 0 (JS `undefined`
coerced by arithmetic/typed-array stores), and stored values are bytes. -/
def byteAt (l : List Nat) (i : Nat) : Nat := l.getD i 0 % 256

/-- Models `Math.round (a / b)` for nonnegative integers `a`, `b`:
round half up.  At every call site in this development the quotient is
either exactly representable in binary floating point or farther than
the rounding error from a tie, so this agrees with the source. -/
def jsRound (a b : Nat) : Nat := (2 * a + b) / (2 * b)

/-- Absolute difference on `Nat`, modelling `Math.abs (x - y)`. -/
def distN (a b : Nat) : Nat := max a b - min a b

/-- Little-endian serialization of a 32-bit value, one byte per entry,
modelling `writeUint32` (each byte masked with `0xff`). -/
def u32le (x : Nat) : List Nat :=
  [x % 256, x / 256 % 256, x / 65536 % 256, x / 16777216 % 256]

/-- Little-endian 32-bit read at `off`, modelling `DataView.getUint32`. -/
def readU32 (l : List Nat) (off : Nat) : Nat :=
  byteAt l off + 256 * byteAt l (off + 1) + 65536 * byteAt l (off + 2) +
    16777216 * byteAt l (off + 3)

/-- Interprets the low 32 bits of a natural number as a signed 32-bit
integer (JS `ToInt32`). -/
def int32 (u : Nat) : Int :=
  if u % 4294967296 < 2147483648 then ((u % 4294967296 : Nat) : Int)
  else ((u % 4294967296 : Nat) : Int) - 4294967296

/-- Models the JS expression `(x >> k) & (m - 1)` for a power of two `m`:
`ToInt32`, shift count reduced mod 32, arithmetic shift (floor division),
then the low bits of the two's-complement pattern. -/
def jsShr (u k m : Nat) : Nat := ((int32 u).fdiv (2 ^ (k % 32)) % (m : Int)).toNat

/-- Index of the nearest entry: running fold over distances keeping the
first index whose distance is strictly below the best so far (`minDistance`
starts at `Infinity`, modelled by `none`). -/
def selectNearestGo : Nat → Nat → Option Nat → List Nat → Nat
  | _, best, _, [] => best
  | j, best, bestD, d :: rest =>
    if bestD.all (fun m => d < m) then selectNearestGo (j + 1) j (some d) rest
    else selectNearestGo (j + 1) best bestD rest

/-- Nearest-entry selection shared by the DXT color fit, the DXT5 alpha fit
and the palette reduction (each builds its own distance list). -/
def selectNearest (ds : List Nat) : Nat := selectNearestGo 0 0 none ds

/-- Neutral RGBA image value (`DecodedImage` in the source):
`pixels` has 4 bytes per pixel in R,G,B,A order. -/
structure DecodedImage where
  width : Nat
  height : Nat
  pixels : List Nat
  deriving Repr, DecidableEq

/-- Embedding of `rgb565ToRgb888` (compression/dxt.ts): expands a 16-bit
RGB565 color to an (r, g, b) triple of 8-bit components, each scaled
proportionally and rounded. -/
def rgb565ToRgb888 (c : Nat) : Nat × Nat × Nat :=
  (jsRound (c / 2048 % 32 * 255) 31, jsRound (c / 32 % 64 * 255) 63,
    jsRound (c % 32 * 255) 31)

/-- Embedding of `rgb888ToRgb565` (compression/dxt.ts): quantizes 8-bit
components to a packed 5-6-5 value; the source's `& 0x1f` / `& 0x3f`
masks after truncating float division become `% 32` / `% 64` after
`Nat` division. -/
def rgb888ToRgb565 (r g b : Nat) : Nat :=
  r * 31 / 255 % 32 * 2048 + g * 63 / 255 % 64 * 32 + b * 31 / 255 % 32

/-- Four-entry DXT1 color table shared verbatim by `decompressDXT1` and
`compressDXT1Block`: slots 0,1 are the expanded endpoints; slots 2,3
depend on comparing the raw 16-bit endpoint values. -/
def dxt1Palette (c0 c1 : Nat) (idx : Nat) : Nat × Nat × Nat :=
  let e0 := rgb565ToRgb888 c0
  let e1 := rgb565ToRgb888 c1
  match idx with
  | 0 => e0
  | 1 => e1
  | 2 =>
    if c0 > c1 then
      (jsRound (2 * e0.1 + e1.1) 3, jsRound (2 * e0.2.1 + e1.2.1) 3,
        jsRound (2 * e0.2.2 + e1.2.2) 3)
    else
      (jsRound (e0.1 + e1.1) 2, jsRound (e0.2.1 + e1.2.1) 2,
        jsRound (e0.2.2 + e1.2.2) 2)
  | _ =>
    if c0 > c1 then
      (jsRound (e0.1 + 2 * e1.1) 3, jsRound (e0.2.1 + 2 * e1.2.1) 3,
        jsRound (e0.2.2 + 2 * e1.2.2) 3)
    else (0, 0, 0)

/-- Four-entry color table used by `decompressDXT3` and `decompressDXT5`:
always the 4-color linear ramp, with no endpoint-order branch. -/
def dxtRampPalette (c0 c1 : Nat) (idx : Nat) : Nat × Nat × Nat :=
  let e0 := rgb565ToRgb888 c0
  let e1 := rgb565ToRgb888 c1
  match idx with
  | 0 => e0
  | 1 => e1
  | 2 =>
    (jsRound (2 * e0.1 + e1.1) 3, jsRound (2 * e0.2.1 + e1.2.1) 3,
      jsRound (2 * e0.2.2 + e1.2.2) 3)
  | _ =>
    (jsRound (e0.1 + 2 * e1.1) 3, jsRound (e0.2.1 + 2 * e1.2.1) 3,
      jsRound (e0.2.2 + 2 * e1.2.2) 3)

/-- Embedding of `buildAlphaPalette` (compression/dxt.ts): the 8-entry
DXT5 alpha ramp from two endpoints. -/
def buildAlphaPalette (alpha0 alpha1 : Nat) : List Nat :=
  if alpha0 > alpha1 then
    [alpha0, alpha1] ++
      (List.range 6).map (fun j => jsRound ((6 - j) * alpha0 + (j + 1) * alpha1) 7)
  else
    [alpha0, alpha1] ++
      (List.range 4).map (fun j => jsRound ((4 - j) * alpha0 + (j + 1) * alpha1) 5) ++
      [0, 255]

/-- Byte offset of the 8-byte DXT1 block containing pixel (x, y): the
block loops advance `src` by 8 per block, row-major over a grid
`ceil(width/4)` blocks wide. -/
def dxt1Src (width x y : Nat) : Nat := 8 * (y / 4 * ((width + 3) / 4) + x / 4)

/-- First 16-bit endpoint of the block containing (x, y):
`data[src] | (data[src+1] << 8)`. -/
def dxt1C0 (data : List Nat) (width x y : Nat) : Nat :=
  byteAt data (dxt1Src width x y) + 256 * byteAt data (dxt1Src width x y + 1)

/-- Second 16-bit endpoint of the block containing (x, y). -/
def dxt1C1 (data : List Nat) (width x y : Nat) : Nat :=
  byteAt data (dxt1Src width x y + 2) + 256 * byteAt data (dxt1Src width x y + 3)

/-- The 32-bit packed index field of the block containing (x, y), as the
unsigned pattern of the source's `| (<< 8|16|24)` assembly. -/
def dxt1Bits (data : List Nat) (width x y : Nat) : Nat :=
  byteAt data (dxt1Src width x y + 4) + 256 * byteAt data (dxt1Src width x y + 5) +
    65536 * byteAt data (dxt1Src width x y + 6) +
    16777216 * byteAt data (dxt1Src width x y + 7)

/-- The 2-bit color index of pixel (x, y): `(colorBits >> 2t) & 3` over
the signed 32-bit value, for texel `t = 4*(y%4) + x%4`. -/
def dxt1Idx (data : List Nat) (width x y : Nat) : Nat :=
  jsShr (dxt1Bits data width x y) (2 * (4 * (y % 4) + x % 4)) 4

/-- The R,G,B,A bytes the DXT1 decoder writes for pixel (x, y). -/
def dxt1Texel (data : List Nat) (width x y : Nat) : List Nat :=
  [(dxt1Palette (dxt1C0 data width x y) (dxt1C1 data width x y)
      (dxt1Idx data width x y)).1,
    (dxt1Palette (dxt1C0 data width x y) (dxt1C1 data width x y)
      (dxt1Idx data width x y)).2.1,
    (dxt1Palette (dxt1C0 data width x y) (dxt1C1 data width x y)
      (dxt1Idx data width x y)).2.2,
    if dxt1C0 data width x y ≤ dxt1C1 data width x y ∧ dxt1Idx data width x y = 3
      then 0 else 255]

/-- Embedding of `decompressDXT1` (compression/dxt.ts).  The source's
block loops write each in-bounds pixel exactly once (the pixel at (x, y)
is produced by block (x/4, y/4) at texel position 4*(y%4)+x%4), so the
output is computed here per pixel index. -/
def decompressDXT1 (data : List Nat) (width height : Nat) : DecodedImage :=
  { width := width, height := height,
    pixels := ((List.range (width * height)).map (fun p =>
      dxt1Texel data width (p % width) (p / width))).flatten }

/-- Embedding of `decompressDXT3` (compression/dxt.ts): an 8-byte 4-bit
alpha plane precedes the color sub-block; each nibble is scaled by 17. -/
def decompressDXT3 (data : List Nat) (width height : Nat) : DecodedImage :=
  let blocksWide := (width + 3) / 4
  let pixels := ((List.range (width * height)).map (fun p =>
    let x := p % width
    let y := p / width
    let src := 16 * (y / 4 * blocksWide + x / 4)
    let t := 4 * (y % 4) + x % 4
    let alphaByte := byteAt data (src + 4 * t / 8)
    let a := alphaByte / 2 ^ (4 * t % 8) % 16 * 17
    let color0 := byteAt data (src + 8) + 256 * byteAt data (src + 9)
    let color1 := byteAt data (src + 10) + 256 * byteAt data (src + 11)
    let bits := byteAt data (src + 12) + 256 * byteAt data (src + 13) +
      65536 * byteAt data (src + 14) + 16777216 * byteAt data (src + 15)
    let idx := jsShr bits (2 * t) 4
    let e := dxtRampPalette color0 color1 idx
    [e.1, e.2.1, e.2.2, a])).flatten
  { width := width, height := height, pixels := pixels }

/-- Embedding of `decompressDXT5` (compression/dxt.ts).  The source
assembles `alphaBits` with `|`, whose `ToInt32` coercion discards the
`data[src+6] * 2^32` and `data[src+7] * 2^40` contributions, leaving the
signed 32-bit pattern of bytes 2..5; the 3-bit index extraction
`(alphaBits >> 3t) & 7` reduces the shift count mod 32.  `jsShr` models
exactly that. -/
def decompressDXT5 (data : List Nat) (width height : Nat) : DecodedImage :=
  let blocksWide := (width + 3) / 4
  let pixels := ((List.range (width * height)).map (fun p =>
    let x := p % width
    let y := p / width
    let src := 16 * (y / 4 * blocksWide + x / 4)
    let t := 4 * (y % 4) + x % 4
    let alphaBits := byteAt data (src + 2) + 256 * byteAt data (src + 3) +
      65536 * byteAt data (src + 4) + 16777216 * byteAt data (src + 5)
    let alphaPalette := buildAlphaPalette (byteAt data src) (byteAt data (src + 1))
    let a := alphaPalette.getD (jsShr alphaBits (3 * t) 8) 0
    let color0 := byteAt data (src + 8) + 256 * byteAt data (src + 9)
    let color1 := byteAt data (src + 10) + 256 * byteAt data (src + 11)
    let bits := byteAt data (src + 12) + 256 * byteAt data (src + 13) +
      65536 * byteAt data (src + 14) + 16777216 * byteAt data (src + 15)
    let idx := jsShr bits (2 * t) 4
    let e := dxtRampPalette color0 color1 idx
    [e.1, e.2.1, e.2.2, a])).flatten
  { width := width, height := height, pixels := pixels }

/-- Embedding of `findBestColors` (compression/dxt.ts): axis-aligned
bounding box of the 16 texels' RGB values; `color0` from the per-channel
maxima, `color1` from the minima. -/
def findBestColors (pixels : List Nat) : Nat × Nat :=
  let maxOf := fun (c : Nat) =>
    (List.range 16).foldl (fun m i => max m (byteAt pixels (4 * i + c))) 0
  let minOf := fun (c : Nat) =>
    (List.range 16).foldl (fun m i => min m (byteAt pixels (4 * i + c))) 255
  (rgb888ToRgb565 (maxOf 0) (maxOf 1) (maxOf 2),
    rgb888ToRgb565 (minOf 0) (minOf 1) (minOf 2))

/-- Squared Euclidean RGB distance of texel `i` of a 64-byte block to a
color-table entry. -/
def colorDist (pixels : List Nat) (i : Nat) (e : Nat × Nat × Nat) : Nat :=
  distN (byteAt pixels (4 * i)) e.1 ^ 2 +
    distN (byteAt pixels (4 * i + 1)) e.2.1 ^ 2 +
    distN (byteAt pixels (4 * i + 2)) e.2.2 ^ 2

/-- The 16 packed two-bit nearest-color indices of `compressDXT1Block`:
the source accumulates disjoint 2-bit fields with `|=`, equal to this
sum. -/
def dxt1ColorBits (pixels : List Nat) : Nat :=
  (List.range 16).foldl
    (fun acc i =>
      acc + 4 ^ i * selectNearest
        ((List.range 4).map (fun j =>
          colorDist pixels i
            (dxt1Palette (findBestColors pixels).1 (findBestColors pixels).2 j)))) 0

/-- Embedding of `compressDXT1Block` (compression/dxt.ts): endpoint fit,
nearest color-table index per texel, packed into 8 bytes. -/
def compressDXT1Block (pixels : List Nat) : List Nat :=
  [(findBestColors pixels).1 % 256, (findBestColors pixels).1 / 256 % 256,
    (findBestColors pixels).2 % 256, (findBestColors pixels).2 / 256 % 256] ++
    u32le (dxt1ColorBits pixels)

/-- Embedding of `compressDXT3Block` (compression/dxt.ts): 16 alpha
nibbles (each `Math.round(alpha / 17)`, low nibble = even texel) packed
into 8 bytes, followed by the color sub-block. -/
def compressDXT3Block (pixels : List Nat) : List Nat :=
  (List.range 8).map (fun j =>
    jsRound (byteAt pixels (4 * (2 * j) + 3)) 17 +
      16 * jsRound (byteAt pixels (4 * (2 * j + 1) + 3)) 17) ++
    compressDXT1Block pixels

/-- Maximum of the 16 texel alphas of a 64-byte block (the `maxAlpha`
scan of `compressDXT5Block`). -/
def blockMaxAlpha (pixels : List Nat) : Nat :=
  (List.range 16).foldl (fun m i => max m (byteAt pixels (4 * i + 3))) 0

/-- Minimum of the 16 texel alphas of a 64-byte block (the `minAlpha`
scan of `compressDXT5Block`). -/
def blockMinAlpha (pixels : List Nat) : Nat :=
  (List.range 16).foldl (fun m i => min m (byteAt pixels (4 * i + 3))) 255

/-- The 48-bit field of 16 packed three-bit nearest-ramp alpha indices of
`compressDXT5Block` (a `BigInt` in the source, so no 32-bit truncation);
the disjoint `|=` accumulation equals this sum. -/
def dxt5AlphaBits (pixels : List Nat) : Nat :=
  (List.range 16).foldl
    (fun acc i =>
      acc + 8 ^ i * selectNearest
        ((List.range 8).map (fun j =>
          distN (byteAt pixels (4 * i + 3))
            ((buildAlphaPalette (blockMaxAlpha pixels) (blockMinAlpha pixels)).getD j 0)))) 0

/-- Embedding of `compressDXT5Block` (compression/dxt.ts): byte 0 is the
block's maximum alpha, byte 1 the minimum; the packed ramp indices fill
bytes 2..7, then the color sub-block. -/
def compressDXT5Block (pixels : List Nat) : List Nat :=
  [blockMaxAlpha pixels, blockMinAlpha pixels] ++
    (List.range 6).map (fun j => dxt5AlphaBits pixels / 2 ^ (8 * j) % 256) ++
    compressDXT1Block pixels

/-- The 64-byte tile of pixels fed to a block compressor: texels outside
the image are zero-filled, matching the source's block extraction loop. -/
def blockPixels (image : DecodedImage) (bx bY : Nat) : List Nat :=
  ((List.range 16).map (fun t =>
    let srcX := bx * 4 + t % 4
    let srcY := bY * 4 + t / 4
    if srcX < image.width ∧ srcY < image.height then
      let srcIdx := (srcY * image.width + srcX) * 4
      [byteAt image.pixels srcIdx, byteAt image.pixels (srcIdx + 1),
        byteAt image.pixels (srcIdx + 2), byteAt image.pixels (srcIdx + 3)]
    else [0, 0, 0, 0])).flatten

/-- Embedding of `compressDXT1` (compression/dxt.ts): row-major blocks,
8 bytes per block. -/
def compressDXT1 (image : DecodedImage) : List Nat :=
  let blocksWide := (image.width + 3) / 4
  let blocksHigh := (image.height + 3) / 4
  ((List.range (blocksHigh * blocksWide)).map (fun bi =>
    compressDXT1Block (blockPixels image (bi % blocksWide) (bi / blocksWide)))).flatten

/-- Embedding of `compressDXT3` (compression/dxt.ts): 16 bytes per block. -/
def compressDXT3 (image : DecodedImage) : List Nat :=
  let blocksWide := (image.width + 3) / 4
  let blocksHigh := (image.height + 3) / 4
  ((List.range (blocksHigh * blocksWide)).map (fun bi =>
    compressDXT3Block (blockPixels image (bi % blocksWide) (bi / blocksWide)))).flatten

/-- Embedding of `compressDXT5` (compression/dxt.ts): 16 bytes per block. -/
def compressDXT5 (image : DecodedImage) : List Nat :=
  let blocksWide := (image.width + 3) / 4
  let blocksHigh := (image.height + 3) / 4
  ((List.range (blocksHigh * blocksWide)).map (fun bi =>
    compressDXT5Block (blockPixels image (bi % blocksWide) (bi / blocksWide)))).flatten

/-- The alpha byte the RAW1 decoder reads for pixel `i` of an image of
`n` pixels: one byte per pixel at depth 8, one ×17-scaled nibble at
depth 4, one 255/0 threshold bit at depth 1, constant 255 otherwise. -/
def raw1Alpha (data : List Nat) (n alphaSize i : Nat) : Nat :=
  if alphaSize = 8 then byteAt data (n + i)
  else if alphaSize = 4 then
    (if i % 2 = 0 then byteAt data (n + i / 2) % 16
     else byteAt data (n + i / 2) / 16) * 17
  else if alphaSize = 1 then
    (if byteAt data (n + i / 8) / 2 ^ (i % 8) % 2 = 1 then 255 else 0)
  else 255

/-- The R,G,B,A bytes the RAW1 decoder writes for pixel `i`: palette
bytes are stored B,G,R and swapped into R,G,B on read. -/
def raw1Texel (data : List Nat) (n : Nat) (palette : List Nat)
    (alphaSize i : Nat) : List Nat :=
  [byteAt palette (byteAt data i * 4 + 2), byteAt palette (byteAt data i * 4 + 1),
    byteAt palette (byteAt data i * 4), raw1Alpha data n alphaSize i]

/-- Embedding of `decompressRAW1` (compression/palette.ts): the first
`width*height` bytes are palette indices, followed by the packed alpha
plane. -/
def decompressRAW1 (data : List Nat) (width height : Nat) (palette : List Nat)
    (alphaSize : Nat) : DecodedImage :=
  { width := width, height := height,
    pixels := ((List.range (width * height)).map
      (raw1Texel data (width * height) palette alphaSize)).flatten }

/-- Embedding of `decompressRAW3` (compression/palette.ts): per-pixel
B,G,R,A to R,G,B,A byte swizzle. -/
def decompressRAW3 (data : List Nat) (width height : Nat) : DecodedImage :=
  let n := width * height
  let pixels := ((List.range n).map (fun i =>
    [byteAt data (4 * i + 2), byteAt data (4 * i + 1), byteAt data (4 * i),
      byteAt data (4 * i + 3)])).flatten
  { width := width, height := height, pixels := pixels }

/-- The RGB triple of pixel slot `i` (alpha ignored), as scanned by
`generatePalette`. -/
def colorAt (pixels : List Nat) (i : Nat) : Nat × Nat × Nat :=
  (byteAt pixels (4 * i), byteAt pixels (4 * i + 1), byteAt pixels (4 * i + 2))

/-- First-appearance index of a color in the first-pass palette (the
source keys a `Map` by the decimal string of the triple, which is
injective, so this is plain triple equality). -/
def idxOf : List (Nat × Nat × Nat) → Nat × Nat × Nat → Nat
  | [], _ => 0
  | c :: rest, x => if c = x then 0 else idxOf rest x + 1

/-- First pass of `generatePalette`: distinct RGB triples in order of
first appearance.  The source iterates `i` in steps of 4 up to
`pixels.length`, i.e. `ceil(pixels.length / 4)` slots. -/
def distinctColors (pixels : List Nat) : List (Nat × Nat × Nat) :=
  (List.range ((pixels.length + 3) / 4)).foldl (fun pal i =>
    if pal.contains (colorAt pixels i) then pal else pal ++ [colorAt pixels i]) []

/-- Squared Euclidean RGB distance between two triples.  The source
compares `Math.sqrt` of this value with strict `<`; square root is
strictly monotone, so comparing the squares is equivalent (up to
floating-point rounding of the root, which can only merge
almost-tied distances). -/
def sqDist (x e : Nat × Nat × Nat) : Nat :=
  distN x.1 e.1 ^ 2 + distN x.2.1 e.2.1 ^ 2 + distN x.2.2 e.2.2 ^ 2

/-- Embedding of `generatePalette` (compression/palette.ts): returns the
flat RGB palette bytes and one index per pixel slot.  When more than
`maxColors` distinct colors exist, every `floor(count/maxColors)`-th
first-pass color is sampled and each pixel is reassigned to its nearest
sampled color (first index wins ties).  Indices are stored in a
`Uint8Array`, hence the `% 256`. -/
def generatePalette (pixels : List Nat) (maxColors : Nat) : List Nat × List Nat :=
  let n := (pixels.length + 3) / 4
  let distinct := distinctColors pixels
  if maxColors < distinct.length then
    let step := distinct.length / maxColors
    let reduced := (List.range maxColors).map (fun i => distinct.getD (i * step) (0, 0, 0))
    ((reduced.map (fun e => [e.1, e.2.1, e.2.2])).flatten,
      (List.range n).map (fun i =>
        selectNearest (reduced.map (fun e => sqDist (colorAt pixels i) e)) % 256))
  else
    ((distinct.map (fun e => [e.1, e.2.1, e.2.2])).flatten,
      (List.range n).map (fun i => idxOf distinct (colorAt pixels i) % 256))

/-- Packed alpha plane written by `compressRAW1` for a given depth:
one byte per pixel at depth 8, two `Math.round(alpha/17)` nibbles per
byte at depth 4, eight threshold bits (`alpha > 127`) per byte at
depth 1, and nothing otherwise. -/
def alphaPlane (pixels : List Nat) (numPixels alphaSize : Nat) : List Nat :=
  if alphaSize = 8 then (List.range numPixels).map (fun i => byteAt pixels (4 * i + 3))
  else if alphaSize = 4 then
    (List.range ((numPixels + 1) / 2)).map (fun j =>
      jsRound (byteAt pixels (4 * (2 * j) + 3)) 17 +
        if 2 * j + 1 < numPixels then
          16 * jsRound (byteAt pixels (4 * (2 * j + 1) + 3)) 17
        else 0)
  else if alphaSize = 1 then
    (List.range ((numPixels + 7) / 8)).map (fun j =>
      (List.range 8).foldl (fun acc b =>
        acc + (if 8 * j + b < numPixels ∧ 127 < byteAt pixels (4 * (8 * j + b) + 3)
          then 1 else 0) * 2 ^ b) 0)
  else []

/-- Embedding of `compressRAW1` (compression/palette.ts): the index plane
(`width*height` bytes; the source copies the `generatePalette` indices
with `set` into a `width*height`-byte region and would raise if they were
longer, which cannot happen for `pixels.length = 4*width*height`),
followed by the packed alpha plane. -/
def compressRAW1 (image : DecodedImage) (alphaSize : Nat) : List Nat :=
  let n := image.width * image.height
  let indices := (generatePalette image.pixels 256).2.take n
  indices ++ List.replicate (n - indices.length) 0 ++
    alphaPlane image.pixels n alphaSize

/-- Embedding of `compressRAW3` (compression/palette.ts): per-pixel
R,G,B,A to B,G,R,A byte swizzle. -/
def compressRAW3 (image : DecodedImage) : List Nat :=
  let n := image.width * image.height
  ((List.range n).map (fun i =>
    [byteAt image.pixels (4 * i + 2), byteAt image.pixels (4 * i + 1),
      byteAt image.pixels (4 * i), byteAt image.pixels (4 * i + 3)])).flatten

/-- Parsed container header (`BLPHeader` in blp_types.ts); the magic is
kept as its 4 raw bytes (the source stores the UTF-8 decoded string,
and decoding is injective on the ASCII tag). -/
structure BLPHeader where
  magic : List Nat
  version : Nat
  compression : Nat
  alphaSize : Nat
  preferredFormat : Nat
  hasMips : Nat
  width : Nat
  height : Nat
  mipOffsets : List Nat
  mipSizes : List Nat
  deriving Repr, DecidableEq

/-- One populated chain slot (`BLPMipmapData` in blp_types.ts). -/
structure BLPMipmapData where
  width : Nat
  height : Nat
  offset : Nat
  size : Nat
  data : List Nat
  deriving Repr, DecidableEq

/-- The typed failures of the core: the source throws `Error` values with
distinguishing messages; each message becomes one constructor. -/
inductive BlpError where
  | badMagic
  | dataShort
  | chainOutOfBounds (slot : Nat)
  | emptyChain
  | unsupportedCompression (kind : Nat)
  | nonPowerOfTwo
  | unsupportedEncodeCompression (kind : Nat)
  deriving Repr, DecidableEq

/-- Embedding of `parseBlpHeader` (blp_parser.ts): rejects any buffer
whose first four bytes are not the literal tag, then reads the
fixed-layout little-endian fields (a buffer too short for the field
reads makes `DataView.getUint32` raise, modelled by `dataShort`). -/
def parseBlpHeader (data : List Nat) : Except BlpError BLPHeader :=
  if (data.take 4).map (· % 256) ≠ [66, 76, 80, 50] then .error .badMagic
  else if data.length < 148 then .error .dataShort
  else .ok
    { magic := (data.take 4).map (· % 256)
      version := readU32 data 4
      compression := byteAt data 8
      alphaSize := byteAt data 9
      preferredFormat := byteAt data 10
      hasMips := byteAt data 11
      width := readU32 data 12
      height := readU32 data 16
      mipOffsets := (List.range 16).map (fun i => readU32 data (20 + 4 * i))
      mipSizes := (List.range 16).map (fun i => readU32 data (84 + 4 * i)) }

/-- One chain-walk halving step, `Math.max(1, w >> 1)`: `>>` is the JS
signed 32-bit shift, so a value with the sign bit set shifts to a
negative number and the `max` clamps it to 1. -/
def mipStep (w : Nat) : Nat :=
  if w % 4294967296 < 2147483648 then max 1 (w % 4294967296 / 2) else 1

/-- Recursive chain walk over the remaining (offset, size) slot pairs,
carrying the slot index and the current level dimensions, which halve
after every slot whether or not it is populated. -/
def extractAux (data : List Nat) :
    List (Nat × Nat) → Nat → Nat → Nat → Except BlpError (List BLPMipmapData)
  | [], _, _, _ => .ok []
  | (off, sz) :: rest, i, w, h =>
    if 0 < off ∧ 0 < sz then
      if data.length < off + sz then .error (.chainOutOfBounds i)
      else
        match extractAux data rest (i + 1) (mipStep w) (mipStep h) with
        | .error e => .error e
        | .ok ls => .ok
            ({ width := w, height := h, offset := off, size := sz,
               data := (data.drop off).take sz } :: ls)
    else extractAux data rest (i + 1) (mipStep w) (mipStep h)

/-- Embedding of `extractMipmaps` (blp_parser.ts): visits the 16 slots in
order, keeping those whose offset and size are both nonzero. -/
def extractMipmaps (data : List Nat) (header : BLPHeader) :
    Except BlpError (List BLPMipmapData) :=
  extractAux data ((header.mipOffsets.take 16).zip (header.mipSizes.take 16)) 0
    header.width header.height

/-- Embedding of `decodeBlpData` (blp/decoder.ts): parse, walk the chain,
require a populated chain, then dispatch on the compression kind (and,
for DXT, on the format hint) using the first populated level. -/
def decodeBlpData (data : List Nat) : Except BlpError DecodedImage :=
  match parseBlpHeader data with
  | .error e => .error e
  | .ok header =>
    match extractMipmaps data header with
    | .error e => .error e
    | .ok [] => .error .emptyChain
    | .ok (main :: _) =>
      if header.compression = 1 then
        .ok (decompressRAW1 main.data main.width main.height
          ((data.drop 148).take 1024) header.alphaSize)
      else if header.compression = 2 then
        if header.preferredFormat = 1 then
          .ok (decompressDXT3 main.data main.width main.height)
        else if header.preferredFormat = 7 then
          .ok (decompressDXT5 main.data main.width main.height)
        else .ok (decompressDXT1 main.data main.width main.height)
      else if header.compression = 3 then
        .ok (decompressRAW3 main.data main.width main.height)
      else .error (.unsupportedCompression header.compression)

/-- The JS power-of-two test `(w & (w - 1)) === 0` on 32-bit patterns:
for `w = 0` the right operand is the all-ones pattern and the test
passes. -/
def jsPow2Check (w : Nat) : Bool :=
  w % 4294967296 &&& (w + 4294967295) % 4294967296 == 0

/-- Resizing modes (`ResizeMode` in utils/resize.ts). -/
inductive ResizeMode where
  | force
  | pad
  | padCenter
  deriving Repr, DecidableEq

/-- RGBA fill color for padding. -/
structure FillColor where
  r : Nat
  g : Nat
  b : Nat
  a : Nat
  deriving Repr, DecidableEq

/-- Doubling loop of `nextPowerOf2`; 64 doublings bound the iterations
for any 32-bit dimension. -/
def nextPow2Go (n : Nat) : Nat → Nat → Nat
  | 0, power => power
  | fuel + 1, power => if power < n then nextPow2Go n fuel (power * 2) else power

/-- Embedding of `nextPowerOf2` (utils/resize.ts). -/
def nextPowerOf2 (n : Nat) : Nat := if n = 0 then 1 else nextPow2Go n 64 1

/-- Doubling loop of `prevPowerOf2`. -/
def prevPow2Go (n : Nat) : Nat → Nat → Nat
  | 0, power => power
  | fuel + 1, power => if power * 2 ≤ n then prevPow2Go n fuel (power * 2) else power

/-- Embedding of `prevPowerOf2` (utils/resize.ts). -/
def prevPowerOf2 (n : Nat) : Nat := if n = 0 then 1 else prevPow2Go n 64 1

/-- Embedding of `closestPowerOf2` (utils/resize.ts); both subtractions
are nonnegative, so `Nat` subtraction is exact. -/
def closestPowerOf2 (n : Nat) : Nat :=
  if n = 0 then 1
  else if nextPowerOf2 n - n < n - prevPowerOf2 n then nextPowerOf2 n
  else prevPowerOf2 n

/-- Embedding of `calculateOptimalDimensions` (utils/resize.ts). -/
def calculateOptimalDimensions (width height : Nat) (preferLarger : Bool) :
    Nat × Nat :=
  if preferLarger then (nextPowerOf2 width, nextPowerOf2 height)
  else (closestPowerOf2 width, closestPowerOf2 height)

/-- Embedding of `stretchImage` (utils/resize.ts): nearest-neighbor
sampling with `floor(x*srcWidth/targetWidth)`, modelled with exact
integer arithmetic (the source computes the quotient in floating point,
which agrees for dimensions far below 2^26). -/
def stretchImage (image : DecodedImage) (tw th : Nat) : DecodedImage :=
  let pixels := ((List.range (th * tw)).map (fun p =>
    let x := p % tw
    let y := p / tw
    let srcIdx := (y * image.height / th * image.width + x * image.width / tw) * 4
    [byteAt image.pixels srcIdx, byteAt image.pixels (srcIdx + 1),
      byteAt image.pixels (srcIdx + 2), byteAt image.pixels (srcIdx + 3)])).flatten
  { width := tw, height := th, pixels := pixels }

/-- Embedding of `padImage` (utils/resize.ts): fills the target with the
fill color, then copies the source at the (optionally centered) offset.
The source computes the centering offsets with `Math.floor((t - s)/2)`,
which is only used when the target is at least the source in this code
base; `Nat` subtraction matches there. -/
def padImage (image : DecodedImage) (tw th : Nat) (center : Bool)
    (fill : FillColor) : DecodedImage :=
  let offX := if center then (tw - image.width) / 2 else 0
  let offY := if center then (th - image.height) / 2 else 0
  let pixels := ((List.range (th * tw)).map (fun p =>
    let x := p % tw
    let y := p / tw
    if offX ≤ x ∧ x < offX + image.width ∧ offY ≤ y ∧ y < offY + image.height then
      let srcIdx := ((y - offY) * image.width + (x - offX)) * 4
      [byteAt image.pixels srcIdx, byteAt image.pixels (srcIdx + 1),
        byteAt image.pixels (srcIdx + 2), byteAt image.pixels (srcIdx + 3)]
    else [fill.r % 256, fill.g % 256, fill.b % 256, fill.a % 256])).flatten
  { width := tw, height := th, pixels := pixels }

/-- Embedding of `resizeImage` (utils/resize.ts) for the call shape used
by the encoder (`maintainAspectRatio` left at its default `true`).  The
aspect-ratio comparison and the `Math.round` of the scaled dimension are
modelled with exact rational arithmetic; the source computes them in
floating point, which agrees away from representation-error ties. -/
def resizeImage (image : DecodedImage) (tw th : Nat) (mode : ResizeMode)
    (fill : FillColor) : Except BlpError DecodedImage :=
  if ¬ (jsPow2Check tw && jsPow2Check th) then .error .nonPowerOfTwo
  else
    match mode with
    | .force => .ok (stretchImage image tw th)
    | m =>
      let finalW :=
        if image.width * th > tw * image.height then tw
        else jsRound (th * image.width) image.height
      let finalH :=
        if image.width * th > tw * image.height then jsRound (tw * image.height) image.width
        else th
      .ok (padImage image (closestPowerOf2 finalW) (closestPowerOf2 finalH)
        (m = ResizeMode.padCenter) fill)

/-- Embedding of `autoResizeToPowerOf2` (utils/resize.ts). -/
def autoResizeToPowerOf2 (image : DecodedImage) (mode : ResizeMode)
    (preferLarger : Bool) (fill : FillColor) : Except BlpError DecodedImage :=
  let dims := calculateOptimalDimensions image.width image.height preferLarger
  if jsPow2Check image.width && jsPow2Check image.height then .ok image
  else resizeImage image dims.1 dims.2 mode fill

/-- Encoding options (`BLPEncodeOptions` in blp/encoder.ts); the field
defaults are `DEFAULT_OPTIONS`, and the source's object-spread merge
means a caller-supplied field always wins, so a fully explicit record
models any merged option set. -/
structure BLPEncodeOptions where
  compression : Nat := 2
  alphaSize : Nat := 8
  preferredFormat : Nat := 0
  generateMipmaps : Bool := false
  dxtFormat : Nat := 0
  resizeMode : ResizeMode := ResizeMode.padCenter
  preferLargerResize : Bool := true
  autoResize : Bool := true
  fillColor : FillColor := ⟨0, 0, 0, 0⟩
  deriving Repr, DecidableEq

/-- One level of box-filter downsampling (the body of the
`generateMipmaps` while loop): each output texel averages the up-to-4
source texels at (2x+dx, 2y+dy) that lie inside the source, rounding
half up; `Math.max(1, w >> 1)` is the same JS halving as the chain walk. -/
def mipHalve (image : DecodedImage) : DecodedImage :=
  let wNew := mipStep image.width
  let hNew := mipStep image.height
  let pixels := (List.range (wNew * hNew * 4)).map (fun k =>
    let p := k / 4
    let c := k % 4
    let x := p % wNew
    let y := p / wNew
    let term := fun (dx dy : Nat) =>
      if 2 * x + dx < image.width ∧ 2 * y + dy < image.height then
        byteAt image.pixels (((2 * y + dy) * image.width + (2 * x + dx)) * 4 + c)
      else 0
    let present := fun (dx dy : Nat) =>
      if 2 * x + dx < image.width ∧ 2 * y + dy < image.height then 1 else 0
    jsRound (term 0 0 + term 1 0 + term 0 1 + term 1 1)
      (present 0 0 + present 1 0 + present 0 1 + present 1 1))
  { width := wNew, height := hNew, pixels := pixels }

/-- Fuel-indexed unfolding of the `generateMipmaps` while loop, which
runs while both dimensions exceed 1; each iteration strictly shrinks
`width + height`, so that sum bounds the iteration count. -/
def generateMipmapsGo : Nat → DecodedImage → List DecodedImage
  | 0, _ => []
  | fuel + 1, img =>
    if 1 < img.width ∧ 1 < img.height then
      mipHalve img :: generateMipmapsGo fuel (mipHalve img)
    else []

/-- Embedding of `generateMipmaps` (blp/encoder.ts): the base image
followed by successively halved levels. -/
def generateMipmaps (image : DecodedImage) : List DecodedImage :=
  image :: generateMipmapsGo (image.width + image.height) image

/-- Alpha values scanned by the encoder's auto-variant selection
(`for i = 3; i < pixels.length; i += 4`). -/
def dxtAlphaValues (pixels : List Nat) : List Nat :=
  (List.range (pixels.length / 4)).map (fun k => byteAt pixels (4 * k + 3))

/-- The DXT sub-variant selection block of `encodeToBLP`, returning the
derived (compression, alphaSize, preferredFormat).  `isBinaryAlpha` is
the source's `alphaValues.size <= 2 && has(0) && has(255)` with the set
size computed as the number of distinct alpha values. -/
def dxtSelect (opts : BLPEncodeOptions) (pixels : List Nat) : Nat × Nat × Nat :=
  let alphas := dxtAlphaValues pixels
  let hasAlpha := alphas.contains 0 || alphas.contains 255
  let hasPartialAlpha := alphas.any (fun a => decide (0 < a) && decide (a < 255))
  let isBinaryAlpha :=
    decide (alphas.dedup.length ≤ 2) && alphas.contains 0 && alphas.contains 255
  if opts.dxtFormat = 1 then (2, 8, 1)
  else if opts.dxtFormat = 7 then (2, 8, 7)
  else if hasPartialAlpha then
    if opts.preferredFormat = 1 then (2, 8, 1)
    else if opts.preferredFormat = 7 then (2, 8, 7)
    else (2, 8, 7)
  else if hasAlpha && isBinaryAlpha then (2, 1, 0)
  else (2, 0, 0)

/-- Per-level payload produced by the selected codec in `encodeToBLP`. -/
def encodePayload (compression preferredFormat alphaSize : Nat)
    (m : DecodedImage) : List Nat :=
  if compression = 1 then compressRAW1 m alphaSize
  else if compression = 2 then
    if preferredFormat = 1 then compressDXT3 m
    else if preferredFormat = 7 then compressDXT5 m
    else compressDXT1 m
  else compressRAW3 m

/-- The 1024-byte RGBA palette block written for palette-compressed
output: RGB from `generatePalette`, alpha forced to 255 (absent palette
entries read as 0, matching `undefined` stored into a `Uint8Array`). -/
def encodePaletteBlock (pixels : List Nat) : List Nat :=
  let pal := (generatePalette pixels 256).1
  ((List.range 256).map (fun i =>
    [byteAt pal (3 * i), byteAt pal (3 * i + 1), byteAt pal (3 * i + 2), 255])).flatten

/-- The mipmap levels the encoder compresses: the chain when mipmap
generation is requested, otherwise just the base image. -/
def encodeMips (img : DecodedImage) (opts : BLPEncodeOptions) : List DecodedImage :=
  if opts.generateMipmaps then generateMipmaps img else [img]

/-- The per-level compressed payloads for a derived
(compression, alphaSize, preferredFormat) triple. -/
def encodePayloads (img : DecodedImage) (opts : BLPEncodeOptions)
    (sel : Nat × Nat × Nat) : List (List Nat) :=
  (encodeMips img opts).map (encodePayload sel.1 sel.2.2 sel.2.1)

/-- The palette block written between header and payloads: 1024 bytes
for palette-compressed output, empty otherwise. -/
def encodePaletteBytes (img : DecodedImage) (sel : Nat × Nat × Nat) : List Nat :=
  if sel.1 = 1 then encodePaletteBlock img.pixels else []

/-- The 16-entry offset table: running offsets starting right after the
header (and palette block, when present) for the produced levels, zero
for the remaining slots. -/
def encodeOffs (img : DecodedImage) (opts : BLPEncodeOptions)
    (sel : Nat × Nat × Nat) : List Nat :=
  (List.range 16).map (fun i =>
    if i < (encodePayloads img opts sel).length then
      148 + (encodePaletteBytes img sel).length +
        (((encodePayloads img opts sel).take i).map List.length).sum
    else 0)

/-- The 16-entry size table: payload lengths for the produced levels,
zero for the remaining slots. -/
def encodeSzs (img : DecodedImage) (opts : BLPEncodeOptions)
    (sel : Nat × Nat × Nat) : List Nat :=
  (List.range 16).map (fun i =>
    if i < (encodePayloads img opts sel).length then
      ((encodePayloads img opts sel).getD i []).length
    else 0)

/-- The serialized container: header, chain tables, optional palette
block, then the concatenated payloads. -/
def encodeBody (img : DecodedImage) (opts : BLPEncodeOptions)
    (sel : Nat × Nat × Nat) : List Nat :=
  [66, 76, 80, 50] ++ u32le 1 ++
    [sel.1 % 256, sel.2.1 % 256, sel.2.2 % 256,
      if opts.generateMipmaps then 1 else 0] ++
    u32le img.width ++ u32le img.height ++
    ((encodeOffs img opts sel).map u32le).flatten ++
    ((encodeSzs img opts sel).map u32le).flatten ++
    encodePaletteBytes img sel ++ (encodePayloads img opts sel).flatten

/-- Embedding of `encodeToBLP` (blp/encoder.ts): optional power-of-two
resize, DXT auto-variant selection, then the serialized container (the
source raises on an unsupported compression kind when compressing the
first level; the kind check is hoisted before the per-level loop here,
observably the same since the level list is never empty). -/
def encodeToBLP (image : DecodedImage) (opts : BLPEncodeOptions) :
    Except BlpError (List Nat) :=
  match (if jsPow2Check image.width && jsPow2Check image.height then .ok image
         else if opts.autoResize then
           autoResizeToPowerOf2 image opts.resizeMode opts.preferLargerResize
             opts.fillColor
         else .error .nonPowerOfTwo : Except BlpError DecodedImage) with
  | .error e => .error e
  | .ok img =>
    let sel :=
      if opts.compression = 2 then dxtSelect opts img.pixels
      else (opts.compression, opts.alphaSize, opts.preferredFormat)
    if sel.1 = 1 ∨ sel.1 = 2 ∨ sel.1 = 3 then .ok (encodeBody img opts sel)
    else .error (.unsupportedEncodeCompression sel.1)

/-! Structural lemmas about the byte-buffer encodings. -/

theorem byteAt_lt (l : List Nat) (i : Nat) : byteAt l i < 256 :=
  Nat.mod_lt _ (by norm_num)

theorem getD_flatten_uniform {cs : List (List Nat)} {k : Nat}
    (hk : ∀ l ∈ cs, l.length = k) :
    ∀ {p c : Nat}, p < cs.length → c < k →
      cs.flatten.getD (k * p + c) 0 = (cs.getD p []).getD c 0 := by
  induction cs with
  | nil => intro p c hp _; cases hp
  | cons hd tl ih =>
    intro p c hp hc
    have hhd : hd.length = k := hk hd (by simp)
    cases p with
    | zero =>
      have hlt : k * 0 + c < hd.length := by omega
      simp only [List.flatten_cons, List.getD_append _ _ _ _ hlt,
        List.getD_cons_zero]
      norm_num
    | succ p =>
      have hge : hd.length ≤ k * (p + 1) + c := by
        have : k * (p + 1) + c = k + (k * p + c) := by ring
        omega
      simp only [List.flatten_cons, List.getD_append_right _ _ _ _ hge,
        List.getD_cons_succ]
      have harg : k * (p + 1) + c - hd.length = k * p + c := by
        have : k * (p + 1) + c = k + (k * p + c) := by ring
        omega
      rw [harg]
      exact ih (fun l hl => hk l (by simp [hl])) (by simpa using hp) hc

theorem getD_map_range {α : Type} {n : Nat} {f : Nat → α} {d : α} {p : Nat}
    (hp : p < n) : ((List.range n).map f).getD p d = f p := by
  rw [List.getD_eq_getElem _ _ (by simpa using hp)]
  simp

theorem getD_flatten_map_range {n k : Nat} {f : Nat → List Nat}
    (hf : ∀ i, (f i).length = k) {p c : Nat} (hp : p < n) (hc : c < k) :
    (((List.range n).map f).flatten).getD (k * p + c) 0 = (f p).getD c 0 := by
  have h1 : ∀ l ∈ (List.range n).map f, l.length = k := by
    intro l hl
    rcases List.mem_map.mp hl with ⟨i, _, rfl⟩
    exact hf i
  rw [getD_flatten_uniform h1 (by simpa using hp) hc, getD_map_range hp]

theorem length_flatten_uniform {cs : List (List Nat)} {k : Nat}
    (hk : ∀ l ∈ cs, l.length = k) : cs.flatten.length = k * cs.length := by
  induction cs with
  | nil => simp
  | cons hd tl ih =>
    have : hd.length = k := hk hd (by simp)
    simp only [List.flatten_cons, List.length_append, this,
      ih (fun l hl => hk l (by simp [hl])), List.length_cons]
    ring

theorem length_flatten_map_range {n k : Nat} {f : Nat → List Nat}
    (hf : ∀ i, (f i).length = k) :
    (((List.range n).map f).flatten).length = k * n := by
  have h1 : ∀ l ∈ (List.range n).map f, l.length = k := by
    intro l hl
    rcases List.mem_map.mp hl with ⟨i, _, rfl⟩
    exact hf i
  simpa using length_flatten_uniform h1

theorem pixel_index_lt {x y w h : Nat} (hx : x < w) (hy : y < h) :
    y * w + x < w * h := by
  calc y * w + x < y * w + w := by omega
    _ = (y + 1) * w := by ring
    _ ≤ h * w := Nat.mul_le_mul_right w hy
    _ = w * h := Nat.mul_comm h w

theorem pixel_index_mod {x y w : Nat} (hx : x < w) : (y * w + x) % w = x := by
  rw [Nat.add_comm, Nat.add_mul_mod_self_right, Nat.mod_eq_of_lt hx]

theorem pixel_index_div {x y w : Nat} (hx : x < w) : (y * w + x) / w = y := by
  rw [Nat.add_comm, Nat.add_mul_div_right _ _ (by omega : 0 < w),
    Nat.div_eq_of_lt hx]
  omega

/-! C6: parsing with a wrong magic tag. -/

/-- C6: for every input buffer whose first 4 bytes are not the literal
tag 'BLP2' (in particular any buffer shorter than 4 bytes), the header
parse fails with the bad-magic error and never returns a header. -/
theorem C6_bad_magic (data : List Nat)
    (h : (data.take 4).map (· % 256) ≠ [66, 76, 80, 50]) :
    parseBlpHeader data = .error .badMagic := by
  unfold parseBlpHeader
  rw [if_pos h]

/-- Witness for C6 at the empty buffer. -/
theorem C6_bad_magic_witness :
    (([] : List Nat).take 4).map (· % 256) ≠ [66, 76, 80, 50] ∧
      parseBlpHeader [] = .error .badMagic :=
  ⟨by decide, C6_bad_magic [] (by decide)⟩

/-! C7: the DXT5 alpha ramp. -/

/-- C7: for all byte endpoints, the 8-entry alpha ramp has slots 0,1
equal to the endpoints; when `a0 > a1` slots 2..7 are the rounded
7-step interpolation, otherwise slots 2..5 are the rounded 5-step
interpolation and slots 6,7 are exactly 0 and 255. -/
theorem C7_alpha_ramp (a0 a1 : Nat) (h0 : a0 ≤ 255) (h1 : a1 ≤ 255) :
    buildAlphaPalette a0 a1 =
      if a1 < a0 then
        [a0, a1, jsRound (6 * a0 + a1) 7, jsRound (5 * a0 + 2 * a1) 7,
          jsRound (4 * a0 + 3 * a1) 7, jsRound (3 * a0 + 4 * a1) 7,
          jsRound (2 * a0 + 5 * a1) 7, jsRound (a0 + 6 * a1) 7]
      else
        [a0, a1, jsRound (4 * a0 + a1) 5, jsRound (3 * a0 + 2 * a1) 5,
          jsRound (2 * a0 + 3 * a1) 5, jsRound (a0 + 4 * a1) 5, 0, 255] := by
  unfold buildAlphaPalette
  split
  · norm_num [List.range_succ]
  · norm_num [List.range_succ]

/-! Fold bounds used for the DXT5 endpoint scan. -/

theorem foldl_max_ge (l : List Nat) (init : Nat) :
    init ≤ l.foldl max init ∧ ∀ x ∈ l, x ≤ l.foldl max init := by
  induction l generalizing init with
  | nil => simp
  | cons hd tl ih =>
    refine ⟨?_, ?_⟩
    · exact le_trans (le_max_left init hd) (ih (max init hd)).1
    · intro x hx
      rcases List.mem_cons.mp hx with rfl | hx
      · exact le_trans (le_max_right init x) (ih (max init x)).1
      · exact (ih (max init hd)).2 x hx

theorem foldl_max_choice (l : List Nat) (init : Nat) :
    l.foldl max init = init ∨ l.foldl max init ∈ l := by
  induction l generalizing init with
  | nil => simp
  | cons hd tl ih =>
    rcases ih (max init hd) with h | h
    · rcases Nat.le_total init hd with hle | hle
      · right
        rw [List.foldl_cons, h, Nat.max_eq_right hle]
        exact List.mem_cons_self hd tl
      · left
        rw [List.foldl_cons, h, Nat.max_eq_left hle]
    · right
      rw [List.foldl_cons]
      exact List.mem_cons_of_mem hd h

theorem foldl_min_le (l : List Nat) (init : Nat) :
    l.foldl min init ≤ init ∧ ∀ x ∈ l, l.foldl min init ≤ x := by
  induction l generalizing init with
  | nil => simp
  | cons hd tl ih =>
    refine ⟨?_, ?_⟩
    · exact le_trans (ih (min init hd)).1 (min_le_left init hd)
    · intro x hx
      rcases List.mem_cons.mp hx with rfl | hx
      · exact le_trans (ih (min init x)).1 (min_le_right init x)
      · exact (ih (min init hd)).2 x hx

theorem foldl_min_choice (l : List Nat) (init : Nat) :
    l.foldl min init = init ∨ l.foldl min init ∈ l := by
  induction l generalizing init with
  | nil => simp
  | cons hd tl ih =>
    rcases ih (min init hd) with h | h
    · rcases Nat.le_total init hd with hle | hle
      · left
        rw [List.foldl_cons, h, Nat.min_eq_left hle]
      · right
        rw [List.foldl_cons, h, Nat.min_eq_right hle]
        exact List.mem_cons_self hd tl
    · right
      rw [List.foldl_cons]
      exact List.mem_cons_of_mem hd h

/-- Witness for C7 at endpoints 200 and 100. -/
theorem C7_alpha_ramp_witness :
    (200 : Nat) ≤ 255 ∧ (100 : Nat) ≤ 255 ∧
      buildAlphaPalette 200 100 =
        if (100 : Nat) < 200 then
          [200, 100, jsRound (6 * 200 + 100) 7, jsRound (5 * 200 + 2 * 100) 7,
            jsRound (4 * 200 + 3 * 100) 7, jsRound (3 * 200 + 4 * 100) 7,
            jsRound (2 * 200 + 5 * 100) 7, jsRound (200 + 6 * 100) 7]
        else
          [200, 100, jsRound (4 * 200 + 100) 5, jsRound (3 * 200 + 2 * 100) 5,
            jsRound (2 * 200 + 3 * 100) 5, jsRound (200 + 4 * 100) 5, 0, 255] :=
  ⟨by decide, by decide, C7_alpha_ramp 200 100 (by decide) (by decide)⟩

/-! C10: DXT5 encoder alpha endpoint ordering. -/

/-- C10: for every 64-byte block, `compressDXT5Block` writes the maximum
of the 16 texel alphas into byte 0 and the minimum into byte 1, so every
emitted block has byte 0 ≥ byte 1; the decoder's 6-entry alpha branch
(taken when byte 0 ≤ byte 1) is therefore reachable from encoder output
only when all 16 input alphas are equal. -/
theorem C10_dxt5_endpoint_order (pix : List Nat) (hlen : pix.length = 64) :
    ((∀ i, i < 16 → byteAt pix (4 * i + 3) ≤ (compressDXT5Block pix).getD 0 0) ∧
      (∃ i, i < 16 ∧ byteAt pix (4 * i + 3) = (compressDXT5Block pix).getD 0 0)) ∧
    ((∀ i, i < 16 → (compressDXT5Block pix).getD 1 0 ≤ byteAt pix (4 * i + 3)) ∧
      (∃ i, i < 16 ∧ byteAt pix (4 * i + 3) = (compressDXT5Block pix).getD 1 0)) ∧
    (compressDXT5Block pix).getD 1 0 ≤ (compressDXT5Block pix).getD 0 0 ∧
    ((compressDXT5Block pix).getD 0 0 ≤ (compressDXT5Block pix).getD 1 0 →
      ∀ i j, i < 16 → j < 16 → byteAt pix (4 * i + 3) = byteAt pix (4 * j + 3)) := by
  have hs : compressDXT5Block pix = blockMaxAlpha pix :: blockMinAlpha pix ::
      ((List.range 6).map (fun j => dxt5AlphaBits pix / 2 ^ (8 * j) % 256) ++
        compressDXT1Block pix) := rfl
  have hmaxdef : (compressDXT5Block pix).getD 0 0 =
      (List.range 16).foldl (fun m i => max m (byteAt pix (4 * i + 3))) 0 := by
    rw [hs, List.getD_cons_zero]; rfl
  have hmindef : (compressDXT5Block pix).getD 1 0 =
      (List.range 16).foldl (fun m i => min m (byteAt pix (4 * i + 3))) 255 := by
    rw [hs, List.getD_cons_succ, List.getD_cons_zero]; rfl
  set α := fun i => byteAt pix (4 * i + 3) with hα
  have hfmax : (List.range 16).foldl (fun m i => max m (α i)) 0 =
      ((List.range 16).map α).foldl max 0 := (List.foldl_map α max (List.range 16) 0).symm
  have hfmin : (List.range 16).foldl (fun m i => min m (α i)) 255 =
      ((List.range 16).map α).foldl min 255 := (List.foldl_map α min (List.range 16) 255).symm
  set vals := (List.range 16).map α with hvals
  have hmem : ∀ i, i < 16 → α i ∈ vals := by
    intro i hi
    exact List.mem_map.mpr ⟨i, List.mem_range.mpr hi, rfl⟩
  have hub : ∀ i, i < 16 → α i ≤ vals.foldl max 0 :=
    fun i hi => (foldl_max_ge vals 0).2 (α i) (hmem i hi)
  have hlb : ∀ i, i < 16 → vals.foldl min 255 ≤ α i :=
    fun i hi => (foldl_min_le vals 255).2 (α i) (hmem i hi)
  have hbyte : ∀ i, α i ≤ 255 := fun i => Nat.lt_succ_iff.mp (byteAt_lt pix (4 * i + 3))
  have hmax_mem : ∃ i, i < 16 ∧ α i = vals.foldl max 0 := by
    rcases foldl_max_choice vals 0 with h | h
    · refine ⟨0, by norm_num, ?_⟩
      have h0 : α 0 ≤ vals.foldl max 0 := hub 0 (by norm_num)
      rw [h] at h0
      exact (Nat.le_zero.mp h0).trans h.symm
    · rcases List.mem_map.mp h with ⟨i, hi, heq⟩
      exact ⟨i, List.mem_range.mp hi, heq⟩
  have hmin_mem : ∃ i, i < 16 ∧ α i = vals.foldl min 255 := by
    rcases foldl_min_choice vals 255 with h | h
    · refine ⟨0, by norm_num, ?_⟩
      have h0 : vals.foldl min 255 ≤ α 0 := hlb 0 (by norm_num)
      rw [h] at h0
      exact (le_antisymm (hbyte 0) h0).trans h.symm
    · rcases List.mem_map.mp h with ⟨i, hi, heq⟩
      exact ⟨i, List.mem_range.mp hi, heq⟩
  rw [hmaxdef, hmindef, hfmax, hfmin]
  refine ⟨⟨hub, hmax_mem⟩, ⟨hlb, hmin_mem⟩, ?_, ?_⟩
  · exact le_trans (hlb 0 (by norm_num)) (hub 0 (by norm_num))
  · intro hle i j hi hj
    have h1 : α i ≤ α j :=
      le_trans (hub i hi) (le_trans hle (hlb j hj))
    have h2 : α j ≤ α i :=
      le_trans (hub j hj) (le_trans hle (hlb i hi))
    exact le_antisymm h1 h2

/-- Witness for C10 at a concrete 64-byte block. -/
theorem C10_dxt5_endpoint_order_witness :
    (List.replicate 16 [9, 9, 9, 77]).flatten.length = 64 ∧
      ((∀ i, i < 16 →
          byteAt (List.replicate 16 [9, 9, 9, 77]).flatten (4 * i + 3) ≤
            (compressDXT5Block (List.replicate 16 [9, 9, 9, 77]).flatten).getD 0 0) ∧
        (∃ i, i < 16 ∧
          byteAt (List.replicate 16 [9, 9, 9, 77]).flatten (4 * i + 3) =
            (compressDXT5Block (List.replicate 16 [9, 9, 9, 77]).flatten).getD 0 0)) ∧
      ((∀ i, i < 16 →
          (compressDXT5Block (List.replicate 16 [9, 9, 9, 77]).flatten).getD 1 0 ≤
            byteAt (List.replicate 16 [9, 9, 9, 77]).flatten (4 * i + 3)) ∧
        (∃ i, i < 16 ∧
          byteAt (List.replicate 16 [9, 9, 9, 77]).flatten (4 * i + 3) =
            (compressDXT5Block (List.replicate 16 [9, 9, 9, 77]).flatten).getD 1 0)) ∧
      (compressDXT5Block (List.replicate 16 [9, 9, 9, 77]).flatten).getD 1 0 ≤
        (compressDXT5Block (List.replicate 16 [9, 9, 9, 77]).flatten).getD 0 0 ∧
      ((compressDXT5Block (List.replicate 16 [9, 9, 9, 77]).flatten).getD 0 0 ≤
          (compressDXT5Block (List.replicate 16 [9, 9, 9, 77]).flatten).getD 1 0 →
        ∀ i j, i < 16 → j < 16 →
          byteAt (List.replicate 16 [9, 9, 9, 77]).flatten (4 * i + 3) =
            byteAt (List.replicate 16 [9, 9, 9, 77]).flatten (4 * j + 3)) :=
  ⟨by decide, C10_dxt5_endpoint_order (List.replicate 16 [9, 9, 9, 77]).flatten (by decide)⟩

/-! C2: DXT1 block decoding semantics. -/

theorem jsShr_two_bit {u t : Nat} (hu : u < 4294967296) (ht : t < 16) :
    jsShr u (2 * t) 4 = u / 4 ^ t % 4 := by
  unfold jsShr int32
  rw [Nat.mod_eq_of_lt hu]
  interval_cases t <;>
    split <;>
    rw [Int.fdiv_eq_ediv _ (by norm_num)] <;>
    norm_num <;>
    omega

theorem dxt1Texel_length (data : List Nat) (width x y : Nat) :
    (dxt1Texel data width x y).length = 4 := rfl

theorem dxt1Bits_lt (data : List Nat) (width x y : Nat) :
    dxt1Bits data width x y < 4294967296 := by
  unfold dxt1Bits
  have h4 := byteAt_lt data (dxt1Src width x y + 4)
  have h5 := byteAt_lt data (dxt1Src width x y + 5)
  have h6 := byteAt_lt data (dxt1Src width x y + 6)
  have h7 := byteAt_lt data (dxt1Src width x y + 7)
  omega

theorem decompressDXT1_pixel (data : List Nat) {w h x y : Nat}
    (hx : x < w) (hy : y < h) (c : Nat) (hc : c < 4) :
    (decompressDXT1 data w h).pixels.getD (4 * (y * w + x) + c) 0 =
      (dxt1Texel data w x y).getD c 0 := by
  have hshape : (decompressDXT1 data w h).pixels =
      ((List.range (w * h)).map (fun p =>
        dxt1Texel data w (p % w) (p / w))).flatten := rfl
  rw [hshape,
    getD_flatten_map_range (fun p => dxt1Texel_length data w (p % w) (p / w))
      (pixel_index_lt hx hy) hc,
    pixel_index_mod hx, pixel_index_div hx]

/-- C2: for every DXT1 stream and in-bounds pixel, with raw endpoints
`c0`, `c1` of the pixel's block: when `c0 > c1`, table slot 2 is the
per-channel rounding of (2·c0+c1)/3 and slot 3 of (c0+2·c1)/3 (on the
expanded 888 endpoints); when `c0 ≤ c1`, slot 2 is the rounded average
and slot 3 is (0,0,0); alpha is 255 except at a texel whose 2-bit index
is 3 in a block with `c0 ≤ c1`, where it is 0. -/
theorem C2_dxt1_block_semantics (data : List Nat) (w h x y : Nat)
    (hx : x < (decompressDXT1 data w h).width) (hy : y < h) :
    let c0 := dxt1C0 data w x y
    let c1 := dxt1C1 data w x y
    let e0 := rgb565ToRgb888 c0
    let e1 := rgb565ToRgb888 c1
    let idx := dxt1Bits data w x y / 4 ^ (4 * (y % 4) + x % 4) % 4
    let out := fun c => (decompressDXT1 data w h).pixels.getD (4 * (y * w + x) + c) 0
    (c1 < c0 → idx = 2 →
      (out 0, out 1, out 2) = (jsRound (2 * e0.1 + e1.1) 3,
        jsRound (2 * e0.2.1 + e1.2.1) 3, jsRound (2 * e0.2.2 + e1.2.2) 3)) ∧
    (c1 < c0 → idx = 3 →
      (out 0, out 1, out 2) = (jsRound (e0.1 + 2 * e1.1) 3,
        jsRound (e0.2.1 + 2 * e1.2.1) 3, jsRound (e0.2.2 + 2 * e1.2.2) 3)) ∧
    (c0 ≤ c1 → idx = 2 →
      (out 0, out 1, out 2) = (jsRound (e0.1 + e1.1) 2,
        jsRound (e0.2.1 + e1.2.1) 2, jsRound (e0.2.2 + e1.2.2) 2)) ∧
    (c0 ≤ c1 → idx = 3 → (out 0, out 1, out 2) = (0, 0, 0)) ∧
    (out 3 = if c0 ≤ c1 ∧ idx = 3 then 0 else 255) := by
  intro c0 c1 e0 e1 idx out
  have ht : 4 * (y % 4) + x % 4 < 16 := by
    have h1 : y % 4 < 4 := Nat.mod_lt _ (by norm_num)
    have h2 : x % 4 < 4 := Nat.mod_lt _ (by norm_num)
    omega
  have hidx : dxt1Idx data w x y = idx := by
    unfold dxt1Idx
    exact jsShr_two_bit (dxt1Bits_lt data w x y) ht
  have hout : ∀ c, c < 4 → out c = (dxt1Texel data w x y).getD c 0 :=
    fun c hc => decompressDXT1_pixel data hx hy c hc
  have h0 : out 0 = (dxt1Palette c0 c1 (dxt1Idx data w x y)).1 := by
    rw [hout 0 (by norm_num)]; rfl
  have h1 : out 1 = (dxt1Palette c0 c1 (dxt1Idx data w x y)).2.1 := by
    rw [hout 1 (by norm_num)]; rfl
  have h2 : out 2 = (dxt1Palette c0 c1 (dxt1Idx data w x y)).2.2 := by
    rw [hout 2 (by norm_num)]; rfl
  have h3 : out 3 = if c0 ≤ c1 ∧ dxt1Idx data w x y = 3 then 0 else 255 := by
    rw [hout 3 (by norm_num)]; rfl
  refine ⟨?_, ?_, ?_, ?_, ?_⟩
  · intro hgt hi
    rw [h0, h1, h2, hidx, hi]
    simp only [dxt1Palette]
    rw [if_pos hgt]
  · intro hgt hi
    rw [h0, h1, h2, hidx, hi]
    simp only [dxt1Palette]
    rw [if_pos hgt]
  · intro hle hi
    rw [h0, h1, h2, hidx, hi]
    simp only [dxt1Palette]
    rw [if_neg (by omega)]
  · intro hle hi
    rw [h0, h1, h2, hidx, hi]
    simp only [dxt1Palette]
    rw [if_neg (by omega)]
  · rw [h3, hidx]

/-- Witness for C2 at a concrete block: endpoints 2 > 1, texel indices
covering slots 2 and 3. -/
theorem C2_dxt1_block_semantics_witness :
    (0 : Nat) < (decompressDXT1 [2, 0, 1, 0, 230, 0, 0, 0] 4 4).width ∧
      (0 : Nat) < 4 ∧
      (let c0 := dxt1C0 [2, 0, 1, 0, 230, 0, 0, 0] 4 0 0
       let c1 := dxt1C1 [2, 0, 1, 0, 230, 0, 0, 0] 4 0 0
       let e0 := rgb565ToRgb888 c0
       let e1 := rgb565ToRgb888 c1
       let idx := dxt1Bits [2, 0, 1, 0, 230, 0, 0, 0] 4 0 0 /
         4 ^ (4 * (0 % 4) + 0 % 4) % 4
       let out := fun c =>
         (decompressDXT1 [2, 0, 1, 0, 230, 0, 0, 0] 4 4).pixels.getD
           (4 * (0 * 4 + 0) + c) 0
       (c1 < c0 → idx = 2 →
         (out 0, out 1, out 2) = (jsRound (2 * e0.1 + e1.1) 3,
           jsRound (2 * e0.2.1 + e1.2.1) 3, jsRound (2 * e0.2.2 + e1.2.2) 3)) ∧
       (c1 < c0 → idx = 3 →
         (out 0, out 1, out 2) = (jsRound (e0.1 + 2 * e1.1) 3,
           jsRound (e0.2.1 + 2 * e1.2.1) 3, jsRound (e0.2.2 + 2 * e1.2.2) 3)) ∧
       (c0 ≤ c1 → idx = 2 →
         (out 0, out 1, out 2) = (jsRound (e0.1 + e1.1) 2,
           jsRound (e0.2.1 + e1.2.1) 2, jsRound (e0.2.2 + e1.2.2) 2)) ∧
       (c0 ≤ c1 → idx = 3 → (out 0, out 1, out 2) = (0, 0, 0)) ∧
       (out 3 = if c0 ≤ c1 ∧ idx = 3 then 0 else 255)) :=
  ⟨by decide, by decide,
    C2_dxt1_block_semantics [2, 0, 1, 0, 230, 0, 0, 0] 4 4 0 0 (by decide) (by decide)⟩

/-! C8: binary alpha round-trip through the palette codec at depth 1. -/

theorem bits8_foldl_eq (g : Nat → Nat) :
    (List.range 8).foldl (fun acc b => acc + g b * 2 ^ b) 0 =
      g 0 + 2 * g 1 + 4 * g 2 + 8 * g 3 + 16 * g 4 + 32 * g 5 + 64 * g 6 +
        128 * g 7 := by
  simp [List.range_succ]
  ring

theorem bits8_extract (g : Nat → Nat) (hg : ∀ b, g b ≤ 1) {t : Nat} (ht : t < 8) :
    ((List.range 8).foldl (fun acc b => acc + g b * 2 ^ b) 0) / 2 ^ t % 2 = g t := by
  rw [bits8_foldl_eq]
  have h0 := hg 0
  have h1 := hg 1
  have h2 := hg 2
  have h3 := hg 3
  have h4 := hg 4
  have h5 := hg 5
  have h6 := hg 6
  have h7 := hg 7
  interval_cases t <;> omega

theorem bits8_le (g : Nat → Nat) (hg : ∀ b, g b ≤ 1) :
    (List.range 8).foldl (fun acc b => acc + g b * 2 ^ b) 0 ≤ 255 := by
  rw [bits8_foldl_eq]
  have h0 := hg 0
  have h1 := hg 1
  have h2 := hg 2
  have h3 := hg 3
  have h4 := hg 4
  have h5 := hg 5
  have h6 := hg 6
  have h7 := hg 7
  omega

theorem generatePalette_indices_length (pixels : List Nat) (maxColors : Nat) :
    (generatePalette pixels maxColors).2.length = (pixels.length + 3) / 4 := by
  unfold generatePalette
  dsimp only
  split <;> simp

theorem raw1Texel_length (data : List Nat) (n : Nat) (palette : List Nat)
    (alphaSize i : Nat) : (raw1Texel data n palette alphaSize i).length = 4 := rfl

theorem decompressRAW1_alpha (data : List Nat) (w h : Nat) (pal : List Nat)
    (alphaSize : Nat) {i : Nat} (hi : i < w * h) :
    (decompressRAW1 data w h pal alphaSize).pixels.getD (4 * i + 3) 0 =
      raw1Alpha data (w * h) alphaSize i := by
  have hshape : (decompressRAW1 data w h pal alphaSize).pixels =
      ((List.range (w * h)).map (raw1Texel data (w * h) pal alphaSize)).flatten := rfl
  rw [hshape,
    getD_flatten_map_range (raw1Texel_length data (w * h) pal alphaSize) hi
      (by norm_num)]
  unfold raw1Texel
  rw [List.getD_cons_succ, List.getD_cons_succ, List.getD_cons_succ,
    List.getD_cons_zero]

/-- C8: encoding any image with the palette codec at alpha depth 1 and
decoding the result maps each pixel's alpha to exactly 255 when the
input alpha exceeded 127 and to exactly 0 otherwise. -/
theorem C8_palette_alpha1_roundtrip (w h : Nat) (pix : List Nat) (pal : List Nat)
    (i : Nat) (hlen : pix.length = 4 * (w * h)) (hi : i < w * h) :
    (decompressRAW1 (compressRAW1 ⟨w, h, pix⟩ 1) w h pal 1).pixels.getD
        (4 * i + 3) 0 =
      if 127 < byteAt pix (4 * i + 3) then 255 else 0 := by
  set n := w * h with hn
  rw [decompressRAW1_alpha _ _ _ _ _ hi]
  set g := fun b => if 8 * (i / 8) + b < n ∧ 127 < byteAt pix (4 * (8 * (i / 8) + b) + 3)
    then 1 else 0 with hg
  have hgle : ∀ b, g b ≤ 1 := by
    intro b
    rw [hg]
    dsimp only
    split <;> norm_num
  have hidxlen : ((generatePalette pix 256).2.take n).length = n := by
    rw [List.length_take, generatePalette_indices_length, hlen]
    omega
  have hbyte : byteAt (compressRAW1 ⟨w, h, pix⟩ 1) (n + i / 8) =
      (List.range 8).foldl (fun acc b => acc + g b * 2 ^ b) 0 := by
    have hstruct : compressRAW1 ⟨w, h, pix⟩ 1 =
        (generatePalette pix 256).2.take n ++
          List.replicate (n - ((generatePalette pix 256).2.take n).length) 0 ++
          alphaPlane pix n 1 := rfl
    unfold byteAt
    rw [hstruct, hidxlen, Nat.sub_self, List.replicate_zero, List.append_nil,
      List.getD_append_right _ _ _ _ (by omega)]
    rw [hidxlen]
    have hdrop : n + i / 8 - n = i / 8 := by omega
    rw [hdrop]
    have hplane : alphaPlane pix n 1 =
        (List.range ((n + 7) / 8)).map (fun j =>
          (List.range 8).foldl (fun acc b =>
            acc + (if 8 * j + b < n ∧ 127 < byteAt pix (4 * (8 * j + b) + 3)
              then 1 else 0) * 2 ^ b) 0) := by
      unfold alphaPlane
      norm_num
    rw [hplane, getD_map_range (by omega : i / 8 < (n + 7) / 8)]
    rw [Nat.mod_eq_of_lt (Nat.lt_succ_of_le (bits8_le g hgle))]
  have halpha : raw1Alpha (compressRAW1 ⟨w, h, pix⟩ 1) n 1 i =
      if byteAt (compressRAW1 ⟨w, h, pix⟩ 1) (n + i / 8) / 2 ^ (i % 8) % 2 = 1
        then 255 else 0 := by
    unfold raw1Alpha
    norm_num
  rw [halpha, hbyte, bits8_extract g hgle (Nat.mod_lt _ (by norm_num))]
  rw [hg]
  dsimp only
  have hsplit : 8 * (i / 8) + i % 8 = i := Nat.div_add_mod i 8
  rw [hsplit]
  split
  · rename_i hcond
    rw [if_pos hcond.2]
    norm_num
  · rename_i hcond
    rw [if_neg (fun hgt => hcond ⟨hi, hgt⟩)]
    norm_num

/-- Witness for C8 at a concrete 2x2 image. -/
theorem C8_palette_alpha1_roundtrip_witness :
    ([1, 2, 3, 200, 4, 5, 6, 10, 7, 8, 9, 128, 3, 3, 3, 127] : List Nat).length =
        4 * (2 * 2) ∧ (0 : Nat) < 2 * 2 ∧
      (decompressRAW1
          (compressRAW1 ⟨2, 2, [1, 2, 3, 200, 4, 5, 6, 10, 7, 8, 9, 128, 3, 3, 3, 127]⟩ 1)
          2 2 [] 1).pixels.getD (4 * 0 + 3) 0 =
        if 127 < byteAt [1, 2, 3, 200, 4, 5, 6, 10, 7, 8, 9, 128, 3, 3, 3, 127]
            (4 * 0 + 3) then 255 else 0 :=
  ⟨by decide, by decide,
    C8_palette_alpha1_roundtrip 2 2 [1, 2, 3, 200, 4, 5, 6, 10, 7, 8, 9, 128, 3, 3, 3, 127]
      [] 0 (by decide) (by decide)⟩

/-! C5: the chain walk. -/

/-- Dimension reached after `k` chain-walk halving steps. -/
def mipIter : Nat -> Nat -> Nat
  | 0, w => w
  | k + 1, w => mipIter k (mipStep w)

/-- The level produced for slot `k` of a chain walk that starts at
dimensions (w, h), or `none` when the slot is unpopulated. -/
def slotLevel (data : List Nat) (pairs : List (Nat × Nat)) (w h k : Nat) :
    Option BLPMipmapData :=
  if 0 < (pairs.getD k (0, 0)).1 ∧ 0 < (pairs.getD k (0, 0)).2 then
    some (BLPMipmapData.mk (mipIter k w) (mipIter k h) (pairs.getD k (0, 0)).1
      (pairs.getD k (0, 0)).2
      ((data.drop (pairs.getD k (0, 0)).1).take (pairs.getD k (0, 0)).2))
  else none

theorem mipStep_eq {w : Nat} (h2 : w < 2147483648) : mipStep w = max 1 (w / 2) := by
  unfold mipStep
  rw [Nat.mod_eq_of_lt (by omega)]
  rw [if_pos h2]

theorem mipIter_eq : ∀ (k w : Nat), 1 ≤ w -> w < 2147483648 ->
    mipIter k w = max 1 (w / 2 ^ k) := by
  intro k
  induction k with
  | zero =>
    intro w h1 _
    unfold mipIter
    simp
    omega
  | succ k ih =>
    intro w h1 h2
    unfold mipIter
    rw [mipStep_eq h2]
    rw [ih (max 1 (w / 2)) (by omega) (by omega)]
    rcases Nat.lt_or_ge w 2 with hw | hw
    · have hw1 : w = 1 := by omega
      subst hw1
      have e1 : (1 : Nat) ⊔ 1 / 2 = 1 := rfl
      rw [e1]
      have d1 := Nat.div_le_self 1 (2 ^ k)
      have d2 := Nat.div_le_self 1 (2 ^ (k + 1))
      omega
    · have hmax : (1 : Nat) ⊔ w / 2 = w / 2 := by omega
      rw [hmax, Nat.div_div_eq_div_mul]
      have hpow : (2 : Nat) ^ (k + 1) = 2 * 2 ^ k := by ring
      rw [hpow, Nat.mul_comm 2 (2 ^ k)]

theorem slotLevel_zero (data : List Nat) (off sz : Nat) (rest : List (Nat × Nat))
    (w h : Nat) :
    slotLevel data ((off, sz) :: rest) w h 0 =
      if 0 < off ∧ 0 < sz then
        some (BLPMipmapData.mk w h off sz ((data.drop off).take sz))
      else none := by
  simp only [slotLevel, List.getD_cons_zero, mipIter]

theorem slotLevel_succ (data : List Nat) (off sz : Nat) (rest : List (Nat × Nat))
    (w h k : Nat) :
    slotLevel data ((off, sz) :: rest) w h (k + 1) =
      slotLevel data rest (mipStep w) (mipStep h) k := by
  simp only [slotLevel, List.getD_cons_succ, mipIter]

theorem extractAux_ok (data : List Nat) :
    ∀ (pairs : List (Nat × Nat)) (i w h : Nat),
    (∀ k, k < pairs.length -> 0 < (pairs.getD k (0, 0)).1 ->
      0 < (pairs.getD k (0, 0)).2 ->
      (pairs.getD k (0, 0)).1 + (pairs.getD k (0, 0)).2 ≤ data.length) ->
    extractAux data pairs i w h =
      .ok ((List.range pairs.length).filterMap (slotLevel data pairs w h)) := by
  intro pairs
  induction pairs with
  | nil => intro i w h _; rfl
  | cons hd rest ih =>
    intro i w h hbound
    rcases hd with ⟨off, sz⟩
    have hrec := ih (i + 1) (mipStep w) (mipStep h) (fun k hk h1 h2 =>
      hbound (k + 1) (by simpa using hk) (by simpa using h1) (by simpa using h2))
    rw [List.length_cons, List.range_succ_eq_map, List.filterMap_cons,
      List.filterMap_map]
    rw [List.filterMap_congr (fun k _ => by
      rw [Function.comp_apply, slotLevel_succ])]
    rw [slotLevel_zero]
    show extractAux data ((off, sz) :: rest) i w h = _
    unfold extractAux
    by_cases hp : 0 < off ∧ 0 < sz
    · rw [if_pos hp]
      have hin : ¬ data.length < off + sz := by
        have := hbound 0 (by simp) (by simpa using hp.1) (by simpa using hp.2)
        simp at this
        omega
      rw [if_neg hin, hrec, if_pos hp]
    · rw [if_neg hp, hrec, if_neg hp]

theorem extractAux_err (data : List Nat) :
    ∀ (pairs : List (Nat × Nat)) (j i w h : Nat),
    j < pairs.length -> 0 < (pairs.getD j (0, 0)).1 -> 0 < (pairs.getD j (0, 0)).2 ->
    data.length < (pairs.getD j (0, 0)).1 + (pairs.getD j (0, 0)).2 ->
    (∀ k, k < j -> 0 < (pairs.getD k (0, 0)).1 -> 0 < (pairs.getD k (0, 0)).2 ->
      (pairs.getD k (0, 0)).1 + (pairs.getD k (0, 0)).2 ≤ data.length) ->
    extractAux data pairs i w h = .error (.chainOutOfBounds (i + j)) := by
  intro pairs
  induction pairs with
  | nil => intro j i w h hj; cases hj
  | cons hd rest ih =>
    intro j i w h hj hp1 hp2 hout hpre
    rcases hd with ⟨off, sz⟩
    cases j with
    | zero =>
      simp only [List.getD_cons_zero] at hp1 hp2 hout
      show extractAux data ((off, sz) :: rest) i w h = _
      unfold extractAux
      rw [if_pos ⟨hp1, hp2⟩, if_pos hout, Nat.add_zero]
    | succ j =>
      simp only [List.getD_cons_succ] at hp1 hp2 hout
      have hrec := ih j (i + 1) (mipStep w) (mipStep h) (by simpa using hj)
        hp1 hp2 hout (fun k hk a b => by
          have := hpre (k + 1) (by omega) (by simpa using a) (by simpa using b)
          simpa using this)
      show extractAux data ((off, sz) :: rest) i w h = _
      unfold extractAux
      have hidx : i + 1 + j = i + (j + 1) := by omega
      by_cases hp : 0 < off ∧ 0 < sz
      · rw [if_pos hp]
        have hin : ¬ data.length < off + sz := by
          have := hpre 0 (by omega) (by simpa using hp.1) (by simpa using hp.2)
          simp at this
          omega
        rw [if_neg hin, hrec, hidx]
      · rw [if_neg hp, hrec, hidx]

instance exceptDecidableEq {ε α : Type} [DecidableEq ε] [DecidableEq α] :
    DecidableEq (Except ε α)
  | .ok a, .ok b =>
    if h : a = b then .isTrue (by rw [h])
    else .isFalse (by intro hc; cases hc; exact h rfl)
  | .ok _, .error _ => .isFalse (by intro hc; cases hc)
  | .error _, .ok _ => .isFalse (by intro hc; cases hc)
  | .error e, .error f =>
    if h : e = f then .isTrue (by rw [h])
    else .isFalse (by intro hc; cases hc; exact h rfl)

theorem zip_getD {a b : List Nat} {k : Nat} (ha : k < a.length) (hb : k < b.length) :
    (a.zip b).getD k (0, 0) = (a.getD k 0, b.getD k 0) := by
  rw [List.getD_eq_getElem _ _ (by rw [List.length_zip]; omega)]
  rw [List.getElem_zip]
  rw [List.getD_eq_getElem _ _ ha, List.getD_eq_getElem _ _ hb]

/-- C5 counterexample to the claim as stated: a header with width 0 and
a populated, in-bounds slot 0 makes the walk return a level of width 0,
while the claimed formula `max(1, width >> 0)` gives 1. -/
theorem C5_chain_walk_counterexample :
    extractMipmaps [0, 0, 0, 0, 0]
        (BLPHeader.mk [66, 76, 80, 50] 1 2 0 0 1 0 0
          (1 :: List.replicate 15 0) (4 :: List.replicate 15 0)) =
      .ok [BLPMipmapData.mk 0 0 1 4 [0, 0, 0, 0]] ∧
    (0 : Nat) ≠ max 1 (0 / 2 ^ (0 : Nat)) := by
  constructor
  · decide
  · decide

/-- C5 (amended): for every buffer and header with 16-entry chain tables
and dimensions in [1, 2^31), the walk visits all 16 slots in order and,
when every populated slot is in bounds, returns exactly one level per
slot whose offset and size are both nonzero, the level for slot `i`
carrying width `max(1, width >> i)` and height `max(1, height >> i)`
regardless of stored data; and it fails with `ChainOutOfBounds` carrying
the first offending slot index exactly when some populated slot has
`offset + size` exceeding the buffer length.  (The original claim is
also wrong for width or height 0, where slot 0 keeps the raw dimension,
and above 2^31, where the JS signed shift collapses the chain to 1.) -/
theorem C5_chain_walk (data : List Nat) (header : BLPHeader)
    (hoff : header.mipOffsets.length = 16) (hsz : header.mipSizes.length = 16)
    (hw1 : 1 ≤ header.width) (hw2 : header.width < 2147483648)
    (hh1 : 1 ≤ header.height) (hh2 : header.height < 2147483648) :
    ((∀ k, k < 16 → 0 < header.mipOffsets.getD k 0 → 0 < header.mipSizes.getD k 0 →
        header.mipOffsets.getD k 0 + header.mipSizes.getD k 0 ≤ data.length) →
      extractMipmaps data header = .ok ((List.range 16).filterMap (fun k =>
        if 0 < header.mipOffsets.getD k 0 ∧ 0 < header.mipSizes.getD k 0 then
          some (BLPMipmapData.mk (max 1 (header.width / 2 ^ k))
            (max 1 (header.height / 2 ^ k)) (header.mipOffsets.getD k 0)
            (header.mipSizes.getD k 0)
            ((data.drop (header.mipOffsets.getD k 0)).take (header.mipSizes.getD k 0)))
        else none))) ∧
    (∀ j, j < 16 → 0 < header.mipOffsets.getD j 0 → 0 < header.mipSizes.getD j 0 →
      data.length < header.mipOffsets.getD j 0 + header.mipSizes.getD j 0 →
      (∀ k, k < j → 0 < header.mipOffsets.getD k 0 → 0 < header.mipSizes.getD k 0 →
        header.mipOffsets.getD k 0 + header.mipSizes.getD k 0 ≤ data.length) →
      extractMipmaps data header = .error (.chainOutOfBounds j)) := by
  have htake1 : header.mipOffsets.take 16 = header.mipOffsets := by
    rw [← hoff]
    exact List.take_length header.mipOffsets
  have htake2 : header.mipSizes.take 16 = header.mipSizes := by
    rw [← hsz]
    exact List.take_length header.mipSizes
  have hlen : (header.mipOffsets.zip header.mipSizes).length = 16 := by
    rw [List.length_zip, hoff, hsz]
    omega
  have hpair : ∀ k, k < 16 →
      ((header.mipOffsets.zip header.mipSizes).getD k (0, 0)) =
        (header.mipOffsets.getD k 0, header.mipSizes.getD k 0) :=
    fun k hk => zip_getD (by omega) (by omega)
  have hself : extractMipmaps data header =
      extractAux data (header.mipOffsets.zip header.mipSizes) 0 header.width
        header.height := by
    unfold extractMipmaps
    rw [htake1, htake2]
  constructor
  · intro hbound
    rw [hself, extractAux_ok data _ 0 _ _ (fun k hk => by
      rw [hlen] at hk
      rw [hpair k hk]
      exact hbound k hk)]
    rw [hlen]
    congr 1
    apply List.filterMap_congr
    intro k hk
    have hk16 : k < 16 := List.mem_range.mp hk
    unfold slotLevel
    rw [hpair k hk16]
    rw [mipIter_eq k header.width hw1 hw2, mipIter_eq k header.height hh1 hh2]
  · intro j hj h1 h2 hout hpre
    rw [hself]
    have := extractAux_err data (header.mipOffsets.zip header.mipSizes) j 0
      header.width header.height (by omega)
      (by rw [hpair j hj]; exact h1) (by rw [hpair j hj]; exact h2)
      (by rw [hpair j hj]; exact hout)
      (fun k hk a b => by
        rw [hpair k (by omega)] at a b ⊢
        exact hpre k hk a b)
    rw [this]
    rw [Nat.zero_add]

/-- Witness for C5 at a concrete buffer and header. -/
theorem C5_chain_walk_witness :
    ((BLPHeader.mk [66, 76, 80, 50] 1 2 0 0 0 4 4
        (148 :: List.replicate 15 0) (8 :: List.replicate 15 0)).mipOffsets.length = 16) ∧
    ((∀ k, k < 16 →
        0 < (BLPHeader.mk [66, 76, 80, 50] 1 2 0 0 0 4 4
          (148 :: List.replicate 15 0) (8 :: List.replicate 15 0)).mipOffsets.getD k 0 →
        0 < (BLPHeader.mk [66, 76, 80, 50] 1 2 0 0 0 4 4
          (148 :: List.replicate 15 0) (8 :: List.replicate 15 0)).mipSizes.getD k 0 →
        (BLPHeader.mk [66, 76, 80, 50] 1 2 0 0 0 4 4
          (148 :: List.replicate 15 0) (8 :: List.replicate 15 0)).mipOffsets.getD k 0 +
          (BLPHeader.mk [66, 76, 80, 50] 1 2 0 0 0 4 4
            (148 :: List.replicate 15 0) (8 :: List.replicate 15 0)).mipSizes.getD k 0 ≤
          (List.replicate 160 (7 : Nat)).length) →
      extractMipmaps (List.replicate 160 (7 : Nat))
          (BLPHeader.mk [66, 76, 80, 50] 1 2 0 0 0 4 4
            (148 :: List.replicate 15 0) (8 :: List.replicate 15 0)) =
        .ok ((List.range 16).filterMap (fun k =>
          if 0 < (BLPHeader.mk [66, 76, 80, 50] 1 2 0 0 0 4 4
              (148 :: List.replicate 15 0) (8 :: List.replicate 15 0)).mipOffsets.getD k 0 ∧
              0 < (BLPHeader.mk [66, 76, 80, 50] 1 2 0 0 0 4 4
                (148 :: List.replicate 15 0) (8 :: List.replicate 15 0)).mipSizes.getD k 0 then
            some (BLPMipmapData.mk
              (max 1 ((BLPHeader.mk [66, 76, 80, 50] 1 2 0 0 0 4 4
                (148 :: List.replicate 15 0) (8 :: List.replicate 15 0)).width / 2 ^ k))
              (max 1 ((BLPHeader.mk [66, 76, 80, 50] 1 2 0 0 0 4 4
                (148 :: List.replicate 15 0) (8 :: List.replicate 15 0)).height / 2 ^ k))
              ((BLPHeader.mk [66, 76, 80, 50] 1 2 0 0 0 4 4
                (148 :: List.replicate 15 0) (8 :: List.replicate 15 0)).mipOffsets.getD k 0)
              ((BLPHeader.mk [66, 76, 80, 50] 1 2 0 0 0 4 4
                (148 :: List.replicate 15 0) (8 :: List.replicate 15 0)).mipSizes.getD k 0)
              (((List.replicate 160 (7 : Nat)).drop
                  ((BLPHeader.mk [66, 76, 80, 50] 1 2 0 0 0 4 4
                    (148 :: List.replicate 15 0) (8 :: List.replicate 15 0)).mipOffsets.getD k 0)).take
                ((BLPHeader.mk [66, 76, 80, 50] 1 2 0 0 0 4 4
                  (148 :: List.replicate 15 0) (8 :: List.replicate 15 0)).mipSizes.getD k 0)))
          else none))) :=
  ⟨by decide,
    (C5_chain_walk (List.replicate 160 (7 : Nat))
      (BLPHeader.mk [66, 76, 80, 50] 1 2 0 0 0 4 4
        (148 :: List.replicate 15 0) (8 :: List.replicate 15 0))
      (by decide) (by decide) (by decide) (by decide) (by decide) (by decide)).1⟩

/-! C4: the encoder's mipmap chain. -/

theorem mipHalve_width (m : DecodedImage) (h : m.width < 2147483648) :
    (mipHalve m).width = max 1 (m.width / 2) := mipStep_eq h

theorem mipHalve_height (m : DecodedImage) (h : m.height < 2147483648) :
    (mipHalve m).height = max 1 (m.height / 2) := mipStep_eq h

theorem mipHalve_pixel (m : DecodedImage) {x y c : Nat}
    (hx : x < (mipHalve m).width) (hy : y < (mipHalve m).height) (hc : c < 4) :
    (mipHalve m).pixels.getD (4 * (y * (mipHalve m).width + x) + c) 0 =
      jsRound
        ((if 2 * x < m.width ∧ 2 * y < m.height then
            byteAt m.pixels ((2 * y * m.width + 2 * x) * 4 + c) else 0) +
          (if 2 * x + 1 < m.width ∧ 2 * y < m.height then
            byteAt m.pixels ((2 * y * m.width + (2 * x + 1)) * 4 + c) else 0) +
          (if 2 * x < m.width ∧ 2 * y + 1 < m.height then
            byteAt m.pixels (((2 * y + 1) * m.width + 2 * x) * 4 + c) else 0) +
          (if 2 * x + 1 < m.width ∧ 2 * y + 1 < m.height then
            byteAt m.pixels (((2 * y + 1) * m.width + (2 * x + 1)) * 4 + c) else 0))
        ((if 2 * x < m.width ∧ 2 * y < m.height then 1 else 0) +
          (if 2 * x + 1 < m.width ∧ 2 * y < m.height then 1 else 0) +
          (if 2 * x < m.width ∧ 2 * y + 1 < m.height then 1 else 0) +
          (if 2 * x + 1 < m.width ∧ 2 * y + 1 < m.height then 1 else 0)) := by
  have hwd : (mipHalve m).width = mipStep m.width := rfl
  have hhd : (mipHalve m).height = mipStep m.height := rfl
  rw [hwd] at hx
  rw [hhd] at hy
  have hshape : (mipHalve m).pixels =
      (List.range (mipStep m.width * mipStep m.height * 4)).map (fun k =>
        let p := k / 4
        let c := k % 4
        let x := p % mipStep m.width
        let y := p / mipStep m.width
        let term := fun (dx dy : Nat) =>
          if 2 * x + dx < m.width ∧ 2 * y + dy < m.height then
            byteAt m.pixels (((2 * y + dy) * m.width + (2 * x + dx)) * 4 + c)
          else 0
        let present := fun (dx dy : Nat) =>
          if 2 * x + dx < m.width ∧ 2 * y + dy < m.height then 1 else 0
        jsRound (term 0 0 + term 1 0 + term 0 1 + term 1 1)
          (present 0 0 + present 1 0 + present 0 1 + present 1 1)) := rfl
  have hplt : y * mipStep m.width + x < mipStep m.width * mipStep m.height :=
    pixel_index_lt hx hy
  have hidx : 4 * (y * mipStep m.width + x) + c <
      mipStep m.width * mipStep m.height * 4 := by omega
  rw [hwd, hshape, getD_map_range hidx]
  dsimp only
  have hdiv : (4 * (y * mipStep m.width + x) + c) / 4 = y * mipStep m.width + x := by
    omega
  have hmod : (4 * (y * mipStep m.width + x) + c) % 4 = c := by omega
  rw [hdiv, hmod, pixel_index_mod hx, pixel_index_div hx]
  norm_num

theorem generateMipmapsGo_spec : ∀ (fuel : Nat) (img : DecodedImage),
    img.width + img.height ≤ fuel + 3 →
    1 ≤ img.width → 1 ≤ img.height →
    img.width < 2147483648 → img.height < 2147483648 →
    (∀ (d : DecodedImage) (k : Nat),
      k + 1 < (img :: generateMipmapsGo fuel img).length →
      (img :: generateMipmapsGo fuel img).getD (k + 1) d =
        mipHalve ((img :: generateMipmapsGo fuel img).getD k d)) ∧
    (∀ (d : DecodedImage) (k : Nat), k < (img :: generateMipmapsGo fuel img).length →
      1 ≤ ((img :: generateMipmapsGo fuel img).getD k d).width ∧
      ((img :: generateMipmapsGo fuel img).getD k d).width < 2147483648 ∧
      1 ≤ ((img :: generateMipmapsGo fuel img).getD k d).height ∧
      ((img :: generateMipmapsGo fuel img).getD k d).height < 2147483648) ∧
    (∀ (d : DecodedImage) (k : Nat),
      k + 1 < (img :: generateMipmapsGo fuel img).length →
      1 < ((img :: generateMipmapsGo fuel img).getD k d).width ∧
      1 < ((img :: generateMipmapsGo fuel img).getD k d).height) ∧
    (∃ last, (img :: generateMipmapsGo fuel img).getLast? = some last ∧
      (last.width = 1 ∨ last.height = 1)) := by
  intro fuel
  induction fuel with
  | zero =>
    intro img hfuel hw1 hh1 hw2 hh2
    have hgo : generateMipmapsGo 0 img = [] := rfl
    rw [hgo]
    refine ⟨?_, ?_, ?_, ?_⟩
    · intro d k hk
      simp at hk
    · intro d k hk
      simp at hk
      subst hk
      exact ⟨hw1, hw2, hh1, hh2⟩
    · intro d k hk
      simp at hk
    · exact ⟨img, rfl, by omega⟩
  | succ fuel ih =>
    intro img hfuel hw1 hh1 hw2 hh2
    by_cases hcond : 1 < img.width ∧ 1 < img.height
    · have hgo : generateMipmapsGo (fuel + 1) img =
          mipHalve img :: generateMipmapsGo fuel (mipHalve img) := by
        rw [show generateMipmapsGo (fuel + 1) img =
          if 1 < img.width ∧ 1 < img.height then
            mipHalve img :: generateMipmapsGo fuel (mipHalve img)
          else [] from rfl, if_pos hcond]
      rw [hgo]
      have hw' : (mipHalve img).width = max 1 (img.width / 2) := mipHalve_width img hw2
      have hh' : (mipHalve img).height = max 1 (img.height / 2) := mipHalve_height img hh2
      have hrec := ih (mipHalve img) (by omega) (by omega) (by omega) (by omega)
        (by omega)
      rcases hrec with ⟨hA, hB, hC, hD⟩
      refine ⟨?_, ?_, ?_, ?_⟩
      · intro d k hk
        cases k with
        | zero => rfl
        | succ k =>
          rw [List.getD_cons_succ, List.getD_cons_succ]
          exact hA d k (by simpa using hk)
      · intro d k hk
        cases k with
        | zero => exact ⟨hw1, hw2, hh1, hh2⟩
        | succ k =>
          rw [List.getD_cons_succ]
          exact hB d k (by simpa using hk)
      · intro d k hk
        cases k with
        | zero => exact hcond
        | succ k =>
          rw [List.getD_cons_succ]
          exact hC d k (by simpa using hk)
      · rcases hD with ⟨last, hlast, hdim⟩
        exact ⟨last, by rw [List.getLast?_cons_cons]; exact hlast, hdim⟩
    · have hgo : generateMipmapsGo (fuel + 1) img = [] := by
        rw [show generateMipmapsGo (fuel + 1) img =
          if 1 < img.width ∧ 1 < img.height then
            mipHalve img :: generateMipmapsGo fuel (mipHalve img)
          else [] from rfl, if_neg hcond]
      rw [hgo]
      refine ⟨?_, ?_, ?_, ?_⟩
      · intro d k hk
        simp at hk
      · intro d k hk
        simp at hk
        subst hk
        exact ⟨hw1, hw2, hh1, hh2⟩
      · intro d k hk
        simp at hk
      · exact ⟨img, rfl, by omega⟩

/-- C4 counterexample to the claim as stated: a 4x2 image generates the
chain [4x2, 2x1] — the loop stops as soon as either dimension reaches 1,
so the last level is 2x1, not 1x1. -/
theorem C4_mipmap_chain_counterexample :
    (generateMipmaps ⟨4, 2, List.replicate 32 0⟩).getLast?.map
        (fun l => (l.width, l.height)) = some (2, 1) ∧
      ¬ ((2 : Nat) = 1 ∧ (1 : Nat) = 1) := by
  constructor
  · decide
  · decide

/-- C4 (amended): for every image with dimensions in [1, 2^31), the
generated chain starts at the image, each level halves both dimensions
of the previous one (floor, minimum 1), each level's texels are the
rounded average of the up-to-4 contributing source texels (fewer at odd
boundaries), every level before the last has both dimensions above 1,
and the chain stops as soon as either dimension of the last generated
level reaches 1 (not necessarily both, as the original claim states). -/
theorem C4_mipmap_chain (img : DecodedImage)
    (hw1 : 1 ≤ img.width) (hh1 : 1 ≤ img.height)
    (hw2 : img.width < 2147483648) (hh2 : img.height < 2147483648) :
    ((generateMipmaps img).getD 0 img = img) ∧
    (∀ k, k + 1 < (generateMipmaps img).length →
      ((generateMipmaps img).getD (k + 1) img).width =
        max 1 (((generateMipmaps img).getD k img).width / 2) ∧
      ((generateMipmaps img).getD (k + 1) img).height =
        max 1 (((generateMipmaps img).getD k img).height / 2)) ∧
    (∀ k, k + 1 < (generateMipmaps img).length → ∀ x y c,
      x < ((generateMipmaps img).getD (k + 1) img).width →
      y < ((generateMipmaps img).getD (k + 1) img).height → c < 4 →
      ((generateMipmaps img).getD (k + 1) img).pixels.getD
          (4 * (y * ((generateMipmaps img).getD (k + 1) img).width + x) + c) 0 =
        jsRound
          ((if 2 * x < ((generateMipmaps img).getD k img).width ∧
              2 * y < ((generateMipmaps img).getD k img).height then
             byteAt ((generateMipmaps img).getD k img).pixels
               ((2 * y * ((generateMipmaps img).getD k img).width + 2 * x) * 4 + c)
            else 0) +
           (if 2 * x + 1 < ((generateMipmaps img).getD k img).width ∧
              2 * y < ((generateMipmaps img).getD k img).height then
             byteAt ((generateMipmaps img).getD k img).pixels
               ((2 * y * ((generateMipmaps img).getD k img).width + (2 * x + 1)) * 4 + c)
            else 0) +
           (if 2 * x < ((generateMipmaps img).getD k img).width ∧
              2 * y + 1 < ((generateMipmaps img).getD k img).height then
             byteAt ((generateMipmaps img).getD k img).pixels
               (((2 * y + 1) * ((generateMipmaps img).getD k img).width + 2 * x) * 4 + c)
            else 0) +
           (if 2 * x + 1 < ((generateMipmaps img).getD k img).width ∧
              2 * y + 1 < ((generateMipmaps img).getD k img).height then
             byteAt ((generateMipmaps img).getD k img).pixels
               (((2 * y + 1) * ((generateMipmaps img).getD k img).width +
                 (2 * x + 1)) * 4 + c)
            else 0))
          ((if 2 * x < ((generateMipmaps img).getD k img).width ∧
              2 * y < ((generateMipmaps img).getD k img).height then 1 else 0) +
           (if 2 * x + 1 < ((generateMipmaps img).getD k img).width ∧
              2 * y < ((generateMipmaps img).getD k img).height then 1 else 0) +
           (if 2 * x < ((generateMipmaps img).getD k img).width ∧
              2 * y + 1 < ((generateMipmaps img).getD k img).height then 1 else 0) +
           (if 2 * x + 1 < ((generateMipmaps img).getD k img).width ∧
              2 * y + 1 < ((generateMipmaps img).getD k img).height then 1 else 0))) ∧
    (∀ k, k + 1 < (generateMipmaps img).length →
      1 < ((generateMipmaps img).getD k img).width ∧
      1 < ((generateMipmaps img).getD k img).height) ∧
    (∃ last, (generateMipmaps img).getLast? = some last ∧
      (last.width = 1 ∨ last.height = 1)) := by
  have hgm : generateMipmaps img =
      img :: generateMipmapsGo (img.width + img.height) img := rfl
  have hspec := generateMipmapsGo_spec (img.width + img.height) img (by omega)
    hw1 hh1 hw2 hh2
  rcases hspec with ⟨hA, hB, hC, hD⟩
  rw [hgm]
  refine ⟨rfl, ?_, ?_, hC img, hD⟩
  · intro k hk
    rw [hA img k hk]
    have hb := hB img k (by omega)
    exact ⟨mipHalve_width _ hb.2.1, mipHalve_height _ hb.2.2.2⟩
  · intro k hk x y c hx hy hc
    rw [hA img k hk] at hx hy ⊢
    exact mipHalve_pixel _ hx hy hc

/-- Witness for C4 at a concrete 4x4 image. -/
theorem C4_mipmap_chain_witness :
    1 ≤ (4 : Nat) ∧ (4 : Nat) < 2147483648 ∧
      (∃ last, (generateMipmaps ⟨4, 4, List.replicate 64 9⟩).getLast? = some last ∧
        (last.width = 1 ∨ last.height = 1)) :=
  ⟨by decide, by decide,
    (C4_mipmap_chain ⟨4, 4, List.replicate 64 9⟩ (by decide) (by decide)
      (by decide) (by decide)).2.2.2.2⟩

/-! C3: the encoder's DXT auto-variant selection. -/

theorem dxtSelect_fst (opts : BLPEncodeOptions) (pixels : List Nat) :
    (dxtSelect opts pixels).1 = 2 := by
  unfold dxtSelect
  dsimp only
  split
  · rfl
  split
  · rfl
  split
  · split
    · rfl
    split <;> rfl
  split <;> rfl

theorem encodeToBLP_ok (img : DecodedImage) (opts : BLPEncodeOptions)
    (hpw : jsPow2Check img.width = true) (hph : jsPow2Check img.height = true)
    (sel : Nat × Nat × Nat)
    (hsel : (if opts.compression = 2 then dxtSelect opts img.pixels
             else (opts.compression, opts.alphaSize, opts.preferredFormat)) = sel)
    (hkind : sel.1 = 1 ∨ sel.1 = 2 ∨ sel.1 = 3) :
    encodeToBLP img opts = .ok (encodeBody img opts sel) := by
  unfold encodeToBLP
  rw [if_pos (by rw [hpw, hph]; rfl)]
  dsimp only
  rw [hsel, if_pos hkind]

theorem getD_skip4 (pre l : List Nat) (hpre : pre.length = 4) (k : Nat) :
    (pre ++ l).getD (4 + k) 0 = l.getD k 0 := by
  rw [List.getD_append_right _ _ _ _ (by omega)]
  congr 1
  omega

theorem u32le_length (x : Nat) : (u32le x).length = 4 := rfl

theorem encodeBody_byte9 (img : DecodedImage) (opts : BLPEncodeOptions)
    (sel : Nat × Nat × Nat) :
    (encodeBody img opts sel).getD 9 0 = sel.2.1 % 256 := by
  unfold encodeBody
  show ([66, 76, 80, 50] ++ (u32le 1 ++ ([sel.1 % 256, sel.2.1 % 256, sel.2.2 % 256,
    if opts.generateMipmaps then 1 else 0] ++ _))).getD (4 + 5) 0 = sel.2.1 % 256
  rw [getD_skip4 _ _ (by rfl)]
  show (u32le 1 ++ _).getD (4 + 1) 0 = sel.2.1 % 256
  rw [getD_skip4 _ _ (u32le_length 1)]
  rw [List.cons_append, List.cons_append, List.getD_cons_succ, List.getD_cons_zero]

theorem encodeBody_byte10 (img : DecodedImage) (opts : BLPEncodeOptions)
    (sel : Nat × Nat × Nat) :
    (encodeBody img opts sel).getD 10 0 = sel.2.2 % 256 := by
  unfold encodeBody
  show ([66, 76, 80, 50] ++ (u32le 1 ++ ([sel.1 % 256, sel.2.1 % 256, sel.2.2 % 256,
    if opts.generateMipmaps then 1 else 0] ++ _))).getD (4 + 6) 0 = sel.2.2 % 256
  rw [getD_skip4 _ _ (by rfl)]
  show (u32le 1 ++ _).getD (4 + 2) 0 = sel.2.2 % 256
  rw [getD_skip4 _ _ (u32le_length 1)]
  rw [List.cons_append, List.cons_append, List.cons_append, List.getD_cons_succ,
    List.getD_cons_succ, List.getD_cons_zero]

theorem dxtSelect_partial (opts : BLPEncodeOptions) (pixels : List Nat)
    (hd1 : opts.dxtFormat ≠ 1) (hd7 : opts.dxtFormat ≠ 7)
    (hp : (dxtAlphaValues pixels).any
      (fun a => decide (0 < a) && decide (a < 255)) = true) :
    dxtSelect opts pixels = (2, 8, if opts.preferredFormat = 1 then 1 else 7) := by
  unfold dxtSelect
  dsimp only
  rw [if_neg hd1, if_neg hd7, if_pos hp]
  by_cases h1 : opts.preferredFormat = 1
  · rw [if_pos h1, if_pos h1]
  · rw [if_neg h1, if_neg h1]
    split <;> rfl

theorem dxtSelect_binary (opts : BLPEncodeOptions) (pixels : List Nat)
    (hd1 : opts.dxtFormat ≠ 1) (hd7 : opts.dxtFormat ≠ 7)
    (h0 : 0 ∈ dxtAlphaValues pixels) (h255 : 255 ∈ dxtAlphaValues pixels)
    (hsub : ∀ a ∈ dxtAlphaValues pixels, a = 0 ∨ a = 255) :
    dxtSelect opts pixels = (2, 1, 0) := by
  unfold dxtSelect
  dsimp only
  rw [if_neg hd1, if_neg hd7]
  have hp : (dxtAlphaValues pixels).any
      (fun a => decide (0 < a) && decide (a < 255)) = false := by
    rw [List.any_eq_false]
    intro a ha
    rcases hsub a ha with rfl | rfl <;> simp
  rw [if_neg (by rw [hp]; exact Bool.false_ne_true)]
  have hdedup : (dxtAlphaValues pixels).dedup.length ≤ 2 := by
    rw [← List.card_toFinset]
    have hss : (dxtAlphaValues pixels).toFinset ⊆ ({0, 255} : Finset Nat) := by
      intro a ha
      rcases hsub a (List.mem_toFinset.mp ha) with rfl | rfl <;> simp
    calc (dxtAlphaValues pixels).toFinset.card ≤ ({0, 255} : Finset Nat).card :=
          Finset.card_le_card hss
      _ = 2 := by rw [Finset.card_pair (by norm_num)]
  have hb0 : (dxtAlphaValues pixels).contains 0 = true :=
    List.elem_eq_true_of_mem h0
  have hb255 : (dxtAlphaValues pixels).contains 255 = true :=
    List.elem_eq_true_of_mem h255
  rw [if_pos (by rw [hb0, hb255, decide_eq_true hdedup]; rfl)]

theorem dxtSelect_opaque (opts : BLPEncodeOptions) (pixels : List Nat)
    (hd1 : opts.dxtFormat ≠ 1) (hd7 : opts.dxtFormat ≠ 7)
    (hall : ∀ a ∈ dxtAlphaValues pixels, a = 255) :
    dxtSelect opts pixels = (2, 0, 0) := by
  unfold dxtSelect
  dsimp only
  rw [if_neg hd1, if_neg hd7]
  have hp : (dxtAlphaValues pixels).any
      (fun a => decide (0 < a) && decide (a < 255)) = false := by
    rw [List.any_eq_false]
    intro a ha
    rcases hall a ha with rfl
    simp
  rw [if_neg (by rw [hp]; exact Bool.false_ne_true)]
  have hc0 : (dxtAlphaValues pixels).contains 0 = false := by
    by_contra hc
    have := List.mem_of_elem_eq_true (Bool.of_not_eq_false hc)
    have := hall 0 this
    omega
  rw [if_neg (by rw [hc0]; simp)]

set_option maxRecDepth 40000 in
/-- C3 counterexample to the claim as stated: a fully opaque 3x3 image
is auto-resized to 4x4 with transparent padding before the alpha scan,
so the encoder selects alpha depth 1, not the claimed depth 0. -/
theorem C3_dxt_selection_counterexample :
    (∀ a ∈ dxtAlphaValues (List.replicate 9 [10, 20, 30, 255]).flatten, a = 255) ∧
      (encodeToBLP ⟨3, 3, (List.replicate 9 [10, 20, 30, 255]).flatten⟩
          { compression := 2 }).map (fun out => out.getD 9 0) = .ok 1 ∧
      (1 : Nat) ≠ 0 := by
  refine ⟨?_, by decide, by decide⟩
  decide

/-- C3 (amended): when `encodeToBLP` is called with block compression on
an image whose dimensions are powers of two (so no auto-resize occurs)
and the caller did not force a DXT3/DXT5 sub-variant: if any alpha is
strictly between 0 and 255 the encoder writes alpha depth 8 and format
hint DXT5 (or DXT3 when the caller's format hint requests it); if the
alpha values present are exactly the set 0, 255 it writes depth 1 and
hint DXT1; if the image is fully opaque it writes depth 0 and hint DXT1.
(The original claim fails for non-power-of-two images, where auto-resize
pads with transparent pixels before the alpha scan.) -/
theorem C3_dxt_auto_selection (img : DecodedImage) (opts : BLPEncodeOptions)
    (hpw : jsPow2Check img.width = true) (hph : jsPow2Check img.height = true)
    (hc : opts.compression = 2) (hd1 : opts.dxtFormat ≠ 1) (hd7 : opts.dxtFormat ≠ 7)
    (out : List Nat) (hout : encodeToBLP img opts = .ok out) :
    ((dxtAlphaValues img.pixels).any
        (fun a => decide (0 < a) && decide (a < 255)) = true →
      out.getD 9 0 = 8 ∧
        out.getD 10 0 = (if opts.preferredFormat = 1 then 1 else 7)) ∧
    (0 ∈ dxtAlphaValues img.pixels → 255 ∈ dxtAlphaValues img.pixels →
      (∀ a ∈ dxtAlphaValues img.pixels, a = 0 ∨ a = 255) →
      out.getD 9 0 = 1 ∧ out.getD 10 0 = 0) ∧
    ((∀ a ∈ dxtAlphaValues img.pixels, a = 255) →
      out.getD 9 0 = 0 ∧ out.getD 10 0 = 0) := by
  refine ⟨?_, ?_, ?_⟩
  · intro hp
    have hsel := dxtSelect_partial opts img.pixels hd1 hd7 hp
    have heq := encodeToBLP_ok img opts hpw hph (dxtSelect opts img.pixels)
      (by rw [if_pos hc]) (by rw [dxtSelect_fst]; right; left; rfl)
    rw [heq] at hout
    have hob : out = encodeBody img opts (dxtSelect opts img.pixels) :=
      (Except.ok.injEq _ _ ▸ hout).symm
    rw [hob, encodeBody_byte9, encodeBody_byte10, hsel]
    constructor
    · rfl
    · by_cases h1 : opts.preferredFormat = 1
      · rw [if_pos h1]
        rfl
      · rw [if_neg h1]
        rfl
  · intro h0 h255 hsub
    have hsel := dxtSelect_binary opts img.pixels hd1 hd7 h0 h255 hsub
    have heq := encodeToBLP_ok img opts hpw hph (dxtSelect opts img.pixels)
      (by rw [if_pos hc]) (by rw [dxtSelect_fst]; right; left; rfl)
    rw [heq] at hout
    have hob : out = encodeBody img opts (dxtSelect opts img.pixels) :=
      (Except.ok.injEq _ _ ▸ hout).symm
    rw [hob, encodeBody_byte9, encodeBody_byte10, hsel]
    exact ⟨rfl, rfl⟩
  · intro hall
    have hsel := dxtSelect_opaque opts img.pixels hd1 hd7 hall
    have heq := encodeToBLP_ok img opts hpw hph (dxtSelect opts img.pixels)
      (by rw [if_pos hc]) (by rw [dxtSelect_fst]; right; left; rfl)
    rw [heq] at hout
    have hob : out = encodeBody img opts (dxtSelect opts img.pixels) :=
      (Except.ok.injEq _ _ ▸ hout).symm
    rw [hob, encodeBody_byte9, encodeBody_byte10, hsel]
    exact ⟨rfl, rfl⟩

set_option maxRecDepth 40000 in
/-- Witness for C3 at a concrete 4x4 image with a partial alpha value. -/
theorem C3_dxt_auto_selection_witness :
    jsPow2Check (4 : Nat) = true ∧
      encodeToBLP ⟨4, 4, (List.replicate 16 [10, 20, 30, 77]).flatten⟩
          { compression := 2 } =
        .ok (encodeBody ⟨4, 4, (List.replicate 16 [10, 20, 30, 77]).flatten⟩
          { compression := 2 }
          (dxtSelect { compression := 2 } (List.replicate 16 [10, 20, 30, 77]).flatten)) ∧
      ((dxtAlphaValues (List.replicate 16 [10, 20, 30, 77]).flatten).any
          (fun a => decide (0 < a) && decide (a < 255)) = true →
        (encodeBody ⟨4, 4, (List.replicate 16 [10, 20, 30, 77]).flatten⟩
            { compression := 2 }
            (dxtSelect { compression := 2 }
              (List.replicate 16 [10, 20, 30, 77]).flatten)).getD 9 0 = 8 ∧
          (encodeBody ⟨4, 4, (List.replicate 16 [10, 20, 30, 77]).flatten⟩
              { compression := 2 }
              (dxtSelect { compression := 2 }
                (List.replicate 16 [10, 20, 30, 77]).flatten)).getD 10 0 =
            (if ({ compression := 2 } : BLPEncodeOptions).preferredFormat = 1
              then 1 else 7)) :=
  ⟨by decide, by decide,
    (C3_dxt_auto_selection ⟨4, 4, (List.replicate 16 [10, 20, 30, 77]).flatten⟩
      { compression := 2 } (by decide) (by decide) (by decide) (by decide) (by decide)
      (encodeBody ⟨4, 4, (List.replicate 16 [10, 20, 30, 77]).flatten⟩
        { compression := 2 }
        (dxtSelect { compression := 2 } (List.replicate 16 [10, 20, 30, 77]).flatten))
      (by decide)).1⟩

/-! C9: DXT1 round-trip of a constant-color opaque 64x64 image. -/

set_option maxRecDepth 40000 in
theorem chan31_err : ∀ v, v < 256 →
    distN (jsRound (v * 31 / 255 * 255) 31) v ≤ 8 ∧
      distN (jsRound (v * 31 / 255 * 255) 31) v ≤ v := by decide

set_option maxRecDepth 40000 in
theorem chan63_err : ∀ v, v < 256 →
    distN (jsRound (v * 63 / 255 * 255) 63) v ≤ 4 ∧
      distN (jsRound (v * 63 / 255 * 255) 63) v ≤ v := by decide

theorem rgb888ToRgb565_lt (r g b : Nat) : rgb888ToRgb565 r g b < 65536 := by
  unfold rgb888ToRgb565
  have h1 : r * 31 / 255 % 32 < 32 := Nat.mod_lt _ (by norm_num)
  have h2 : g * 63 / 255 % 64 < 64 := Nat.mod_lt _ (by norm_num)
  have h3 : b * 31 / 255 % 32 < 32 := Nat.mod_lt _ (by norm_num)
  omega

theorem rgb565_extract (r g b : Nat) (hr : r ≤ 255) (hg : g ≤ 255) (hb : b ≤ 255) :
    rgb565ToRgb888 (rgb888ToRgb565 r g b) =
      (jsRound (r * 31 / 255 * 255) 31, jsRound (g * 63 / 255 * 255) 63,
        jsRound (b * 31 / 255 * 255) 31) := by
  have hr5 : r * 31 / 255 ≤ 31 := by omega
  have hg6 : g * 63 / 255 ≤ 63 := by omega
  have hb5 : b * 31 / 255 ≤ 31 := by omega
  have hrm : r * 31 / 255 % 32 = r * 31 / 255 := Nat.mod_eq_of_lt (by omega)
  have hgm : g * 63 / 255 % 64 = g * 63 / 255 := Nat.mod_eq_of_lt (by omega)
  have hbm : b * 31 / 255 % 32 = b * 31 / 255 := Nat.mod_eq_of_lt (by omega)
  unfold rgb888ToRgb565 rgb565ToRgb888
  rw [hrm, hgm, hbm]
  have hd1 : (r * 31 / 255 * 2048 + g * 63 / 255 * 32 + b * 31 / 255) / 2048 =
      r * 31 / 255 := by
    rw [show r * 31 / 255 * 2048 + g * 63 / 255 * 32 + b * 31 / 255 =
      2048 * (r * 31 / 255) + (g * 63 / 255 * 32 + b * 31 / 255) from by ring,
      Nat.mul_add_div (by norm_num)]
    have : (g * 63 / 255 * 32 + b * 31 / 255) / 2048 = 0 :=
      Nat.div_eq_of_lt (by omega)
    omega
  have hd2 : (r * 31 / 255 * 2048 + g * 63 / 255 * 32 + b * 31 / 255) / 32 =
      r * 31 / 255 * 64 + g * 63 / 255 := by
    rw [show r * 31 / 255 * 2048 + g * 63 / 255 * 32 + b * 31 / 255 =
      32 * (r * 31 / 255 * 64 + g * 63 / 255) + b * 31 / 255 from by ring,
      Nat.mul_add_div (by norm_num)]
    have : b * 31 / 255 / 32 = 0 := Nat.div_eq_of_lt (by omega)
    omega
  have e1 : (r * 31 / 255 * 2048 + g * 63 / 255 * 32 + b * 31 / 255) / 2048 % 32 =
      r * 31 / 255 := by
    rw [hd1]
    exact Nat.mod_eq_of_lt (by omega)
  have e2 : (r * 31 / 255 * 2048 + g * 63 / 255 * 32 + b * 31 / 255) / 32 % 64 =
      g * 63 / 255 := by
    rw [hd2, show r * 31 / 255 * 64 + g * 63 / 255 =
      64 * (r * 31 / 255) + g * 63 / 255 from by ring, Nat.mul_add_mod]
    exact Nat.mod_eq_of_lt (by omega)
  have e3 : (r * 31 / 255 * 2048 + g * 63 / 255 * 32 + b * 31 / 255) % 32 =
      b * 31 / 255 := by
    rw [show r * 31 / 255 * 2048 + g * 63 / 255 * 32 + b * 31 / 255 =
      32 * (r * 31 / 255 * 64 + g * 63 / 255) + b * 31 / 255 from by ring,
      Nat.mul_add_mod]
    exact Nat.mod_eq_of_lt (by omega)
  rw [e1, e2, e3]

theorem jsRound_same (a : Nat) : jsRound (a + a) 2 = a := by
  unfold jsRound
  omega

theorem jsShr_zero (k m : Nat) : jsShr 0 k m = 0 := by
  unfold jsShr int32
  norm_num

theorem distN_zero (v : Nat) : distN v 0 = v := by
  unfold distN
  omega

theorem byteAt_flatten_replicate {n p c r g b a : Nat}
    (hr : r ≤ 255) (hg : g ≤ 255) (hb : b ≤ 255) (ha : a ≤ 255)
    (hp : p < n) (hc : c < 4) :
    byteAt ((List.replicate n [r, g, b, a]).flatten) (4 * p + c) =
      [r, g, b, a].getD c 0 := by
  unfold byteAt
  have hk : ∀ l ∈ List.replicate n [r, g, b, a], l.length = 4 := by
    intro l hl
    rw [List.eq_of_mem_replicate hl]
    rfl
  rw [getD_flatten_uniform hk (by simpa using hp) hc]
  have hgd : (List.replicate n [r, g, b, a]).getD p [] = [r, g, b, a] := by
    rw [List.getD_eq_getElem _ _ (by simpa using hp), List.getElem_replicate]
  rw [hgd]
  interval_cases c <;> simp <;> omega

theorem foldl_max_const {n v : Nat} (hn : 0 < n) :
    (List.replicate n v).foldl max 0 = v := by
  have hge := foldl_max_ge (List.replicate n v) 0
  have hmem : v ∈ List.replicate n v := List.mem_replicate.mpr ⟨by omega, rfl⟩
  rcases foldl_max_choice (List.replicate n v) 0 with h | h
  · have := hge.2 v hmem
    omega
  · exact List.eq_of_mem_replicate h

theorem foldl_min_const {n v : Nat} (hn : 0 < n) (hv : v ≤ 255) :
    (List.replicate n v).foldl min 255 = v := by
  have hle := foldl_min_le (List.replicate n v) 255
  have hmem : v ∈ List.replicate n v := List.mem_replicate.mpr ⟨by omega, rfl⟩
  rcases foldl_min_choice (List.replicate n v) 255 with h | h
  · have := hle.2 v hmem
    omega
  · exact List.eq_of_mem_replicate h

theorem foldl_id {α β : Type} (l : List β) (f : α → β → α) (a : α)
    (h : ∀ (acc : α) (x : β), x ∈ l → f acc x = acc) : l.foldl f a = a := by
  induction l generalizing a with
  | nil => rfl
  | cons hd tl ih =>
    rw [List.foldl_cons, h a hd (by simp)]
    exact ih a (fun acc x hx => h acc x (by simp [hx]))

theorem selectNearest_three_same (d e : Nat) (h : ¬ e < d) :
    selectNearest [d, d, d, e] = 0 := by
  simp [selectNearest, selectNearestGo, Option.all_some, Nat.lt_irrefl, h]

theorem foldl_max_const_fn {n v : Nat} (g : Nat → Nat) (hn : 0 < n)
    (h : ∀ i, i < n → g i = v) :
    (List.range n).foldl (fun m i => max m (g i)) 0 = v := by
  have h1 : (List.range n).foldl (fun m i => max m (g i)) 0 =
      ((List.range n).map g).foldl max 0 := (List.foldl_map g max (List.range n) 0).symm
  have h2 : (List.range n).map g = List.replicate n v := by
    rw [List.eq_replicate]
    refine ⟨by simp, ?_⟩
    intro w hw
    rcases List.mem_map.mp hw with ⟨i, hi, rfl⟩
    exact h i (List.mem_range.mp hi)
  rw [h1, h2, foldl_max_const hn]

theorem foldl_min_const_fn {n v : Nat} (g : Nat → Nat) (hn : 0 < n) (hv : v ≤ 255)
    (h : ∀ i, i < n → g i = v) :
    (List.range n).foldl (fun m i => min m (g i)) 255 = v := by
  have h1 : (List.range n).foldl (fun m i => min m (g i)) 255 =
      ((List.range n).map g).foldl min 255 := (List.foldl_map g min (List.range n) 255).symm
  have h2 : (List.range n).map g = List.replicate n v := by
    rw [List.eq_replicate]
    refine ⟨by simp, ?_⟩
    intro w hw
    rcases List.mem_map.mp hw with ⟨i, hi, rfl⟩
    exact h i (List.mem_range.mp hi)
  rw [h1, h2, foldl_min_const hn hv]

theorem distN_comm (a b : Nat) : distN a b = distN b a := by
  unfold distN
  omega

/-- C9: a constant-color fully opaque 64x64 image, DXT1-compressed and
decompressed, decodes to the same color at every texel up to the RGB565
quantization step (at most 8 per channel for red and blue, at most 4
for green), with alpha 255 everywhere. -/
theorem C9_dxt1_constant_roundtrip (r g b : Nat)
    (hr : r ≤ 255) (hg : g ≤ 255) (hb : b ≤ 255)
    (x y : Nat) (hx : x < 64) (hy : y < 64) :
    let img : DecodedImage := ⟨64, 64, (List.replicate 4096 [r, g, b, 255]).flatten⟩
    let out := fun c =>
      (decompressDXT1 (compressDXT1 img) 64 64).pixels.getD (4 * (y * 64 + x) + c) 0
    distN (out 0) r ≤ 8 ∧ distN (out 1) g ≤ 4 ∧ distN (out 2) b ≤ 8 ∧ out 3 = 255 := by
  intro img out
  have hcb : ∀ i, i < 16 → ∀ c, c < 4 →
      byteAt ((List.replicate 16 [r, g, b, 255]).flatten) (4 * i + c) =
        [r, g, b, 255].getD c 0 :=
    fun i hi c hc => byteAt_flatten_replicate hr hg hb (by norm_num) hi hc
  have hblock : ∀ bx bY, bx < 16 → bY < 16 →
      blockPixels img bx bY = (List.replicate 16 [r, g, b, 255]).flatten := by
    intro bx bY hbx hbY
    unfold blockPixels
    congr 1
    rw [List.eq_replicate]
    refine ⟨by rw [List.length_map, List.length_range], ?_⟩
    intro w hw
    rcases List.mem_map.mp hw with ⟨t, ht, rfl⟩
    have ht16 : t < 16 := List.mem_range.mp ht
    have hcond : bx * 4 + t % 4 < img.width ∧ bY * 4 + t / 4 < img.height := by
      show bx * 4 + t % 4 < 64 ∧ bY * 4 + t / 4 < 64
      have h1 : t % 4 < 4 := Nat.mod_lt _ (by norm_num)
      have h2 : t / 4 < 4 := by omega
      omega
    rw [if_pos hcond]
    have hp : (bY * 4 + t / 4) * 64 + (bx * 4 + t % 4) < 4096 := by
      have h1 : t % 4 < 4 := Nat.mod_lt _ (by norm_num)
      have h2 : t / 4 < 4 := by omega
      nlinarith
    have hb0 := byteAt_flatten_replicate (n := 4096) (a := 255)
      (p := (bY * 4 + t / 4) * 64 + (bx * 4 + t % 4)) (c := 0)
      hr hg hb (by norm_num) hp (by norm_num)
    have hb1 := byteAt_flatten_replicate (n := 4096) (a := 255)
      (p := (bY * 4 + t / 4) * 64 + (bx * 4 + t % 4)) (c := 1)
      hr hg hb (by norm_num) hp (by norm_num)
    have hb2 := byteAt_flatten_replicate (n := 4096) (a := 255)
      (p := (bY * 4 + t / 4) * 64 + (bx * 4 + t % 4)) (c := 2)
      hr hg hb (by norm_num) hp (by norm_num)
    have hb3 := byteAt_flatten_replicate (n := 4096) (a := 255)
      (p := (bY * 4 + t / 4) * 64 + (bx * 4 + t % 4)) (c := 3)
      hr hg hb (by norm_num) hp (by norm_num)
    show [byteAt ((List.replicate 4096 [r, g, b, 255]).flatten)
        (((bY * 4 + t / 4) * 64 + (bx * 4 + t % 4)) * 4),
      byteAt ((List.replicate 4096 [r, g, b, 255]).flatten)
        (((bY * 4 + t / 4) * 64 + (bx * 4 + t % 4)) * 4 + 1),
      byteAt ((List.replicate 4096 [r, g, b, 255]).flatten)
        (((bY * 4 + t / 4) * 64 + (bx * 4 + t % 4)) * 4 + 2),
      byteAt ((List.replicate 4096 [r, g, b, 255]).flatten)
        (((bY * 4 + t / 4) * 64 + (bx * 4 + t % 4)) * 4 + 3)] = [r, g, b, 255]
    rw [show ((bY * 4 + t / 4) * 64 + (bx * 4 + t % 4)) * 4 =
      4 * ((bY * 4 + t / 4) * 64 + (bx * 4 + t % 4)) + 0 from by ring]
    rw [show 4 * ((bY * 4 + t / 4) * 64 + (bx * 4 + t % 4)) + 0 + 1 =
      4 * ((bY * 4 + t / 4) * 64 + (bx * 4 + t % 4)) + 1 from by ring]
    rw [show 4 * ((bY * 4 + t / 4) * 64 + (bx * 4 + t % 4)) + 0 + 2 =
      4 * ((bY * 4 + t / 4) * 64 + (bx * 4 + t % 4)) + 2 from by ring]
    rw [show 4 * ((bY * 4 + t / 4) * 64 + (bx * 4 + t % 4)) + 0 + 3 =
      4 * ((bY * 4 + t / 4) * 64 + (bx * 4 + t % 4)) + 3 from by ring]
    rw [hb0, hb1, hb2, hb3]
    rfl
  have hfind : findBestColors ((List.replicate 16 [r, g, b, 255]).flatten) =
      (rgb888ToRgb565 r g b, rgb888ToRgb565 r g b) := by
    unfold findBestColors
    dsimp only
    have hmax0 := foldl_max_const_fn (n := 16) (v := r)
      (fun i => byteAt ((List.replicate 16 [r, g, b, 255]).flatten) (4 * i + 0))
      (by norm_num) (fun i hi => hcb i hi 0 (by norm_num))
    have hmax1 := foldl_max_const_fn (n := 16) (v := g)
      (fun i => byteAt ((List.replicate 16 [r, g, b, 255]).flatten) (4 * i + 1))
      (by norm_num) (fun i hi => hcb i hi 1 (by norm_num))
    have hmax2 := foldl_max_const_fn (n := 16) (v := b)
      (fun i => byteAt ((List.replicate 16 [r, g, b, 255]).flatten) (4 * i + 2))
      (by norm_num) (fun i hi => hcb i hi 2 (by norm_num))
    have hmin0 := foldl_min_const_fn (n := 16) (v := r)
      (fun i => byteAt ((List.replicate 16 [r, g, b, 255]).flatten) (4 * i + 0))
      (by norm_num) hr (fun i hi => hcb i hi 0 (by norm_num))
    have hmin1 := foldl_min_const_fn (n := 16) (v := g)
      (fun i => byteAt ((List.replicate 16 [r, g, b, 255]).flatten) (4 * i + 1))
      (by norm_num) hg (fun i hi => hcb i hi 1 (by norm_num))
    have hmin2 := foldl_min_const_fn (n := 16) (v := b)
      (fun i => byteAt ((List.replicate 16 [r, g, b, 255]).flatten) (4 * i + 2))
      (by norm_num) hb (fun i hi => hcb i hi 2 (by norm_num))
    rw [hmax0, hmax1, hmax2, hmin0, hmin1, hmin2]
  have hext := rgb565_extract r g b hr hg hb
  have hq16 := rgb888ToRgb565_lt r g b
  have herr0 := chan31_err r (by omega)
  have herr1 := chan63_err g (by omega)
  have herr2 := chan31_err b (by omega)
  have hp0 : dxt1Palette (rgb888ToRgb565 r g b) (rgb888ToRgb565 r g b) 0 =
      rgb565ToRgb888 (rgb888ToRgb565 r g b) := rfl
  have hp2 : dxt1Palette (rgb888ToRgb565 r g b) (rgb888ToRgb565 r g b) 2 =
      rgb565ToRgb888 (rgb888ToRgb565 r g b) := by
    unfold dxt1Palette
    dsimp only
    rw [if_neg (Nat.lt_irrefl _), jsRound_same, jsRound_same, jsRound_same]
  have hp3 : dxt1Palette (rgb888ToRgb565 r g b) (rgb888ToRgb565 r g b) 3 =
      (0, 0, 0) := by
    unfold dxt1Palette
    dsimp only
    rw [if_neg (Nat.lt_irrefl _)]
  have hcd : ∀ i, i < 16 →
      colorDist ((List.replicate 16 [r, g, b, 255]).flatten) i
        (rgb565ToRgb888 (rgb888ToRgb565 r g b)) =
      distN r (rgb565ToRgb888 (rgb888ToRgb565 r g b)).1 ^ 2 +
        distN g (rgb565ToRgb888 (rgb888ToRgb565 r g b)).2.1 ^ 2 +
        distN b (rgb565ToRgb888 (rgb888ToRgb565 r g b)).2.2 ^ 2 := by
    intro i hi
    unfold colorDist
    have h0 : byteAt ((List.replicate 16 [r, g, b, 255]).flatten) (4 * i) = r := by
      have := hcb i hi 0 (by norm_num)
      simpa using this
    have h1 := hcb i hi 1 (by norm_num)
    have h2 := hcb i hi 2 (by norm_num)
    rw [h0, h1, h2]
    rfl
  have hcd3 : ∀ i, i < 16 →
      colorDist ((List.replicate 16 [r, g, b, 255]).flatten) i (0, 0, 0) =
        r ^ 2 + g ^ 2 + b ^ 2 := by
    intro i hi
    unfold colorDist
    have h0 : byteAt ((List.replicate 16 [r, g, b, 255]).flatten) (4 * i) = r := by
      have := hcb i hi 0 (by norm_num)
      simpa using this
    have h1 := hcb i hi 1 (by norm_num)
    have h2 := hcb i hi 2 (by norm_num)
    rw [h0, h1, h2, distN_zero, distN_zero, distN_zero]
    rfl
  have hele : distN r (rgb565ToRgb888 (rgb888ToRgb565 r g b)).1 ^ 2 +
      distN g (rgb565ToRgb888 (rgb888ToRgb565 r g b)).2.1 ^ 2 +
      distN b (rgb565ToRgb888 (rgb888ToRgb565 r g b)).2.2 ^ 2 ≤
      r ^ 2 + g ^ 2 + b ^ 2 := by
    have e0 : distN r (rgb565ToRgb888 (rgb888ToRgb565 r g b)).1 ≤ r := by
      rw [hext, distN_comm]
      exact herr0.2
    have e1 : distN g (rgb565ToRgb888 (rgb888ToRgb565 r g b)).2.1 ≤ g := by
      rw [hext, distN_comm]
      exact herr1.2
    have e2 : distN b (rgb565ToRgb888 (rgb888ToRgb565 r g b)).2.2 ≤ b := by
      rw [hext, distN_comm]
      exact herr2.2
    have := Nat.pow_le_pow_left e0 2
    have := Nat.pow_le_pow_left e1 2
    have := Nat.pow_le_pow_left e2 2
    omega
  have hbits : dxt1ColorBits ((List.replicate 16 [r, g, b, 255]).flatten) = 0 := by
    unfold dxt1ColorBits
    rw [hfind]
    apply foldl_id
    intro acc i hi
    have hi16 : i < 16 := List.mem_range.mp hi
    have hlist : (List.range 4).map (fun j =>
        colorDist ((List.replicate 16 [r, g, b, 255]).flatten) i
          (dxt1Palette ((rgb888ToRgb565 r g b, rgb888ToRgb565 r g b)).1
            ((rgb888ToRgb565 r g b, rgb888ToRgb565 r g b)).2 j)) =
        [distN r (rgb565ToRgb888 (rgb888ToRgb565 r g b)).1 ^ 2 +
          distN g (rgb565ToRgb888 (rgb888ToRgb565 r g b)).2.1 ^ 2 +
          distN b (rgb565ToRgb888 (rgb888ToRgb565 r g b)).2.2 ^ 2,
         distN r (rgb565ToRgb888 (rgb888ToRgb565 r g b)).1 ^ 2 +
          distN g (rgb565ToRgb888 (rgb888ToRgb565 r g b)).2.1 ^ 2 +
          distN b (rgb565ToRgb888 (rgb888ToRgb565 r g b)).2.2 ^ 2,
         distN r (rgb565ToRgb888 (rgb888ToRgb565 r g b)).1 ^ 2 +
          distN g (rgb565ToRgb888 (rgb888ToRgb565 r g b)).2.1 ^ 2 +
          distN b (rgb565ToRgb888 (rgb888ToRgb565 r g b)).2.2 ^ 2,
         r ^ 2 + g ^ 2 + b ^ 2] := by
      have hr4 : List.range 4 = [0, 1, 2, 3] := by decide
      rw [hr4]
      dsimp only [List.map]
      rw [hp0, hp2, hp3]
      rw [show dxt1Palette (rgb888ToRgb565 r g b) (rgb888ToRgb565 r g b) 1 =
        rgb565ToRgb888 (rgb888ToRgb565 r g b) from rfl]
      rw [hcd i hi16, hcd3 i hi16]
    rw [hlist, selectNearest_three_same _ _ (Nat.not_lt.mpr hele)]
    ring
  have hB : compressDXT1Block ((List.replicate 16 [r, g, b, 255]).flatten) =
      [rgb888ToRgb565 r g b % 256, rgb888ToRgb565 r g b / 256 % 256,
        rgb888ToRgb565 r g b % 256, rgb888ToRgb565 r g b / 256 % 256] ++ u32le 0 := by
    unfold compressDXT1Block
    rw [hfind, hbits]
  have hcomp : compressDXT1 img =
      (List.replicate 256 ([rgb888ToRgb565 r g b % 256, rgb888ToRgb565 r g b / 256 % 256,
        rgb888ToRgb565 r g b % 256, rgb888ToRgb565 r g b / 256 % 256] ++ u32le 0)).flatten := by
    unfold compressDXT1
    dsimp only
    rw [show (64 + 3) / 4 = 16 from by norm_num]
    have hmap : (List.range (16 * 16)).map (fun bi =>
        compressDXT1Block (blockPixels img (bi % 16) (bi / 16))) =
        List.replicate 256 ([rgb888ToRgb565 r g b % 256, rgb888ToRgb565 r g b / 256 % 256,
          rgb888ToRgb565 r g b % 256, rgb888ToRgb565 r g b / 256 % 256] ++ u32le 0) := by
      rw [List.eq_replicate]
      refine ⟨by rw [List.length_map, List.length_range], ?_⟩
      intro w hw
      rcases List.mem_map.mp hw with ⟨bi, hbi, rfl⟩
      have hbi' : bi < 256 := by
        have := List.mem_range.mp hbi
        omega
      rw [hblock (bi % 16) (bi / 16) (Nat.mod_lt _ (by norm_num)) (by omega)]
      exact hB
    rw [hmap]
  have hdata : ∀ j, j < 8 → ∀ bi, bi < 256 →
      byteAt (compressDXT1 img) (8 * bi + j) =
        ([rgb888ToRgb565 r g b % 256, rgb888ToRgb565 r g b / 256 % 256,
          rgb888ToRgb565 r g b % 256, rgb888ToRgb565 r g b / 256 % 256] ++
          u32le 0).getD j 0 := by
    intro j hj bi hbi
    unfold byteAt
    rw [hcomp]
    have hk : ∀ l ∈ List.replicate 256
        ([rgb888ToRgb565 r g b % 256, rgb888ToRgb565 r g b / 256 % 256,
          rgb888ToRgb565 r g b % 256, rgb888ToRgb565 r g b / 256 % 256] ++ u32le 0),
        l.length = 8 := by
      intro l hl
      rw [List.eq_of_mem_replicate hl]
      rfl
    rw [getD_flatten_uniform hk (by rw [List.length_replicate]; exact hbi) hj]
    have hrep : (List.replicate 256
        ([rgb888ToRgb565 r g b % 256, rgb888ToRgb565 r g b / 256 % 256,
          rgb888ToRgb565 r g b % 256, rgb888ToRgb565 r g b / 256 % 256] ++
          u32le 0)).getD bi [] =
        [rgb888ToRgb565 r g b % 256, rgb888ToRgb565 r g b / 256 % 256,
          rgb888ToRgb565 r g b % 256, rgb888ToRgb565 r g b / 256 % 256] ++ u32le 0 := by
      rw [List.getD_eq_getElem _ _ (by rw [List.length_replicate]; exact hbi),
        List.getElem_replicate]
    rw [hrep]
    have hmod : ∀ v, v % 256 % 256 = v % 256 := fun v => Nat.mod_mod_of_dvd _ dvd_rfl
    interval_cases j
    · exact hmod _
    · exact hmod _
    · exact hmod _
    · exact hmod _
    · rfl
    · rfl
    · rfl
    · rfl
  have hbi : y / 4 * 16 + x / 4 < 256 := by omega
  have hsrc : dxt1Src 64 x y = 8 * (y / 4 * 16 + x / 4) := by
    unfold dxt1Src
    norm_num
  have hC0 : dxt1C0 (compressDXT1 img) 64 x y = rgb888ToRgb565 r g b := by
    unfold dxt1C0
    rw [hsrc]
    rw [show 8 * (y / 4 * 16 + x / 4) = 8 * (y / 4 * 16 + x / 4) + 0 from by ring]
    rw [show 8 * (y / 4 * 16 + x / 4) + 0 + 1 = 8 * (y / 4 * 16 + x / 4) + 1 from by ring]
    rw [hdata 0 (by norm_num) _ hbi, hdata 1 (by norm_num) _ hbi]
    show rgb888ToRgb565 r g b % 256 + 256 * (rgb888ToRgb565 r g b / 256 % 256) = _
    omega
  have hC1 : dxt1C1 (compressDXT1 img) 64 x y = rgb888ToRgb565 r g b := by
    unfold dxt1C1
    rw [hsrc]
    rw [show 8 * (y / 4 * 16 + x / 4) + 2 + 1 = 8 * (y / 4 * 16 + x / 4) + 3 from by ring]
    rw [hdata 2 (by norm_num) _ hbi, hdata 3 (by norm_num) _ hbi]
    show rgb888ToRgb565 r g b % 256 + 256 * (rgb888ToRgb565 r g b / 256 % 256) = _
    omega
  have hBits : dxt1Bits (compressDXT1 img) 64 x y = 0 := by
    unfold dxt1Bits
    rw [hsrc]
    rw [show 8 * (y / 4 * 16 + x / 4) + 4 + 1 = 8 * (y / 4 * 16 + x / 4) + 5 from by ring]
    rw [show 8 * (y / 4 * 16 + x / 4) + 5 + 1 = 8 * (y / 4 * 16 + x / 4) + 6 from by ring]
    rw [show 8 * (y / 4 * 16 + x / 4) + 6 + 1 = 8 * (y / 4 * 16 + x / 4) + 7 from by ring]
    rw [hdata 4 (by norm_num) _ hbi, hdata 5 (by norm_num) _ hbi,
      hdata 6 (by norm_num) _ hbi, hdata 7 (by norm_num) _ hbi]
    rfl
  have hIdx : dxt1Idx (compressDXT1 img) 64 x y = 0 := by
    unfold dxt1Idx
    rw [hBits, jsShr_zero]
  have htex : dxt1Texel (compressDXT1 img) 64 x y =
      [(rgb565ToRgb888 (rgb888ToRgb565 r g b)).1,
        (rgb565ToRgb888 (rgb888ToRgb565 r g b)).2.1,
        (rgb565ToRgb888 (rgb888ToRgb565 r g b)).2.2, 255] := by
    unfold dxt1Texel
    rw [hC0, hC1, hIdx, hp0]
    rw [if_neg (by omega)]
  have hout : ∀ c, c < 4 → out c =
      (dxt1Texel (compressDXT1 img) 64 x y).getD c 0 :=
    fun c hc => decompressDXT1_pixel (compressDXT1 img) hx hy c hc
  have ho0 : out 0 = (rgb565ToRgb888 (rgb888ToRgb565 r g b)).1 := by
    rw [hout 0 (by norm_num), htex]
    rfl
  have ho1 : out 1 = (rgb565ToRgb888 (rgb888ToRgb565 r g b)).2.1 := by
    rw [hout 1 (by norm_num), htex]
    rfl
  have ho2 : out 2 = (rgb565ToRgb888 (rgb888ToRgb565 r g b)).2.2 := by
    rw [hout 2 (by norm_num), htex]
    rfl
  have ho3 : out 3 = 255 := by
    rw [hout 3 (by norm_num), htex]
    rfl
  refine ⟨?_, ?_, ?_, ho3⟩
  · rw [ho0, hext]
    exact herr0.1
  · rw [ho1, hext]
    exact herr1.1
  · rw [ho2, hext]
    exact herr2.1

/-- Witness for C9 at color (200, 30, 60) and texel (5, 9). -/
theorem C9_dxt1_constant_roundtrip_witness :
    (200 : Nat) ≤ 255 ∧ (5 : Nat) < 64 ∧
      (let img : DecodedImage := ⟨64, 64, (List.replicate 4096 [200, 30, 60, 255]).flatten⟩
       let out := fun c =>
         (decompressDXT1 (compressDXT1 img) 64 64).pixels.getD (4 * (9 * 64 + 5) + c) 0
       distN (out 0) 200 ≤ 8 ∧ distN (out 1) 30 ≤ 4 ∧ distN (out 2) 60 ≤ 8 ∧
         out 3 = 255) :=
  ⟨by decide, by decide,
    C9_dxt1_constant_roundtrip 200 30 60 (by decide) (by decide) (by decide)
      5 9 (by decide) (by decide)⟩

/-! C1: the decode / re-encode / decode round trip.  First, byte-level
access lemmas for the serialized container. -/

theorem byteAt_append_right (pre l : List Nat) (k i : Nat) (hlen : pre.length = k) :
    byteAt (pre ++ l) (k + i) = byteAt l i := by
  unfold byteAt
  rw [List.getD_append_right _ _ _ _ (by omega)]
  have h : k + i - pre.length = i := by omega
  rw [h]

theorem readU32_append_right (pre l : List Nat) (k i : Nat) (hlen : pre.length = k) :
    readU32 (pre ++ l) (k + i) = readU32 l i := by
  unfold readU32
  rw [byteAt_append_right pre l k i hlen,
    show k + i + 1 = k + (i + 1) from by ring,
    byteAt_append_right pre l k (i + 1) hlen,
    show k + i + 2 = k + (i + 2) from by ring,
    byteAt_append_right pre l k (i + 2) hlen,
    show k + i + 3 = k + (i + 3) from by ring,
    byteAt_append_right pre l k (i + 3) hlen]

theorem readU32_u32le (x : Nat) (rest : List Nat) :
    readU32 (u32le x ++ rest) 0 = x % 4294967296 := by
  have h : readU32 (u32le x ++ rest) 0 =
      x % 256 % 256 + 256 * (x / 256 % 256 % 256) + 65536 * (x / 65536 % 256 % 256) +
        16777216 * (x / 16777216 % 256 % 256) := rfl
  rw [h]
  omega

theorem byteAt_table (vals rest : List Nat) (i c : Nat)
    (hi : i < vals.length) (hc : c < 4) :
    byteAt ((vals.map u32le).flatten ++ rest) (4 * i + c) =
      (u32le (vals.getD i 0)).getD c 0 % 256 := by
  have hk : ∀ l ∈ vals.map u32le, l.length = 4 := by
    intro l hl
    rcases List.mem_map.mp hl with ⟨x, _, rfl⟩
    rfl
  unfold byteAt
  rw [List.getD_append _ _ _ _ (by
    rw [length_flatten_uniform hk, List.length_map]
    omega)]
  rw [getD_flatten_uniform hk (by simpa using hi) hc]
  have hmg : (vals.map u32le).getD i [] = u32le (vals.getD i 0) := by
    rw [List.getD_eq_getElem _ _ (by simpa using hi), List.getElem_map,
      List.getD_eq_getElem _ _ hi]
  rw [hmg]

theorem readU32_table (vals rest : List Nat) (i : Nat) (hi : i < vals.length) :
    readU32 ((vals.map u32le).flatten ++ rest) (4 * i) =
      vals.getD i 0 % 4294967296 := by
  have h0 : byteAt ((vals.map u32le).flatten ++ rest) (4 * i) =
      (u32le (vals.getD i 0)).getD 0 0 % 256 := by
    have := byteAt_table vals rest i 0 hi (by norm_num)
    simpa using this
  unfold readU32
  rw [h0, show 4 * i + 1 = 4 * i + 1 from rfl,
    byteAt_table vals rest i 1 hi (by norm_num),
    show 4 * i + 1 + 1 = 4 * i + 2 from by ring,
    byteAt_table vals rest i 2 hi (by norm_num),
    show 4 * i + 2 + 1 = 4 * i + 3 from by ring,
    byteAt_table vals rest i 3 hi (by norm_num)]
  have e0 : (u32le (vals.getD i 0)).getD 0 0 = vals.getD i 0 % 256 := rfl
  have e1 : (u32le (vals.getD i 0)).getD 1 0 = vals.getD i 0 / 256 % 256 := rfl
  have e2 : (u32le (vals.getD i 0)).getD 2 0 = vals.getD i 0 / 65536 % 256 := rfl
  have e3 : (u32le (vals.getD i 0)).getD 3 0 = vals.getD i 0 / 16777216 % 256 := rfl
  rw [e0, e1, e2, e3]
  omega

theorem jsPow2Check_pow (a : Nat) (ha : a ≤ 14) : jsPow2Check (2 ^ a) = true := by
  interval_cases a <;> decide

theorem extractAux_zeros (data : List Nat) :
    ∀ (k i w h : Nat), extractAux data (List.replicate k (0, 0)) i w h = .ok [] := by
  intro k
  induction k with
  | zero => intro i w h; rfl
  | succ k ih =>
    intro i w h
    show extractAux data ((0, 0) :: List.replicate k (0, 0)) i w h = .ok []
    unfold extractAux
    rw [if_neg (by omega)]
    exact ih (i + 1) (mipStep w) (mipStep h)

/-! Shapes of the decompressor outputs: the dimensions are the arguments
and the pixel buffer always has 4 bytes per pixel. -/

theorem decompressRAW1_shape (d : List Nat) (w h : Nat) (pal : List Nat) (a : Nat) :
    (decompressRAW1 d w h pal a).width = w ∧ (decompressRAW1 d w h pal a).height = h ∧
      (decompressRAW1 d w h pal a).pixels.length = 4 * (w * h) := by
  refine ⟨rfl, rfl, ?_⟩
  unfold decompressRAW1
  dsimp only
  exact length_flatten_map_range (fun i => raw1Texel_length d (w * h) pal a i)

theorem decompressRAW3_shape (d : List Nat) (w h : Nat) :
    (decompressRAW3 d w h).width = w ∧ (decompressRAW3 d w h).height = h ∧
      (decompressRAW3 d w h).pixels.length = 4 * (w * h) := by
  refine ⟨rfl, rfl, ?_⟩
  unfold decompressRAW3
  dsimp only
  exact length_flatten_map_range (fun i => rfl)

theorem decompressDXT1_shape (d : List Nat) (w h : Nat) :
    (decompressDXT1 d w h).width = w ∧ (decompressDXT1 d w h).height = h ∧
      (decompressDXT1 d w h).pixels.length = 4 * (w * h) := by
  refine ⟨rfl, rfl, ?_⟩
  unfold decompressDXT1
  dsimp only
  exact length_flatten_map_range (fun p => dxt1Texel_length d w (p % w) (p / w))

theorem decompressDXT3_shape (d : List Nat) (w h : Nat) :
    (decompressDXT3 d w h).width = w ∧ (decompressDXT3 d w h).height = h ∧
      (decompressDXT3 d w h).pixels.length = 4 * (w * h) := by
  refine ⟨rfl, rfl, ?_⟩
  unfold decompressDXT3
  dsimp only
  exact length_flatten_map_range (fun p => rfl)

theorem decompressDXT5_shape (d : List Nat) (w h : Nat) :
    (decompressDXT5 d w h).width = w ∧ (decompressDXT5 d w h).height = h ∧
      (decompressDXT5 d w h).pixels.length = 4 * (w * h) := by
  refine ⟨rfl, rfl, ?_⟩
  unfold decompressDXT5
  dsimp only
  exact length_flatten_map_range (fun p => rfl)

/-! Lengths of the compressed payloads. -/

theorem compressRAW3_length (image : DecodedImage) :
    (compressRAW3 image).length = 4 * (image.width * image.height) := by
  unfold compressRAW3
  dsimp only
  exact length_flatten_map_range (fun i => rfl)

theorem compressDXT1Block_length (p : List Nat) : (compressDXT1Block p).length = 8 := rfl

theorem compressDXT3Block_length (p : List Nat) : (compressDXT3Block p).length = 16 := by
  unfold compressDXT3Block
  rw [List.length_append, List.length_map, List.length_range, compressDXT1Block_length]

theorem compressDXT5Block_length (p : List Nat) : (compressDXT5Block p).length = 16 := by
  unfold compressDXT5Block
  rw [List.length_append, List.length_append, List.length_map, List.length_range,
    compressDXT1Block_length]
  rfl

theorem compressDXT1_length (image : DecodedImage) :
    (compressDXT1 image).length =
      8 * ((image.height + 3) / 4 * ((image.width + 3) / 4)) := by
  unfold compressDXT1
  dsimp only
  exact length_flatten_map_range (fun i => compressDXT1Block_length _)

theorem compressDXT3_length (image : DecodedImage) :
    (compressDXT3 image).length =
      16 * ((image.height + 3) / 4 * ((image.width + 3) / 4)) := by
  unfold compressDXT3
  dsimp only
  exact length_flatten_map_range (fun i => compressDXT3Block_length _)

theorem compressDXT5_length (image : DecodedImage) :
    (compressDXT5 image).length =
      16 * ((image.height + 3) / 4 * ((image.width + 3) / 4)) := by
  unfold compressDXT5
  dsimp only
  exact length_flatten_map_range (fun i => compressDXT5Block_length _)

theorem alphaPlane_length_le (p : List Nat) (n a : Nat) :
    (alphaPlane p n a).length ≤ n := by
  unfold alphaPlane
  by_cases h8 : a = 8
  · rw [if_pos h8, List.length_map, List.length_range]
  · rw [if_neg h8]
    by_cases h4 : a = 4
    · rw [if_pos h4, List.length_map, List.length_range]
      omega
    · rw [if_neg h4]
      by_cases h1 : a = 1
      · rw [if_pos h1, List.length_map, List.length_range]
        omega
      · rw [if_neg h1]
        exact Nat.zero_le n

theorem compressRAW1_length (image : DecodedImage) (a : Nat) :
    (compressRAW1 image a).length = image.width * image.height +
      (alphaPlane image.pixels (image.width * image.height) a).length := by
  unfold compressRAW1
  dsimp only
  rw [List.length_append, List.length_append, List.length_take, List.length_replicate]
  omega

theorem encodePaletteBlock_length (p : List Nat) :
    (encodePaletteBlock p).length = 1024 := by
  unfold encodePaletteBlock
  dsimp only
  have h := length_flatten_map_range (n := 256) (k := 4)
    (f := fun i => [byteAt (generatePalette p 256).1 (3 * i),
      byteAt (generatePalette p 256).1 (3 * i + 1),
      byteAt (generatePalette p 256).1 (3 * i + 2), 255]) (fun i => rfl)
  omega

theorem encodePaletteBytes_length (img : DecodedImage) (sel : Nat × Nat × Nat) :
    (encodePaletteBytes img sel).length = if sel.1 = 1 then 1024 else 0 := by
  unfold encodePaletteBytes
  by_cases h : sel.1 = 1
  · rw [if_pos h, if_pos h, encodePaletteBlock_length]
  · rw [if_neg h, if_neg h]
    rfl

theorem encodePayload_pos (k pf asz : Nat) (image : DecodedImage)
    (hw : 1 ≤ image.width) (hh : 1 ≤ image.height) :
    1 ≤ (encodePayload k pf asz image).length := by
  have hn : 1 ≤ image.width * image.height := Nat.mul_pos hw hh
  have hb : 1 ≤ (image.height + 3) / 4 * ((image.width + 3) / 4) := by
    have b1 : 1 ≤ (image.height + 3) / 4 := by omega
    have b2 : 1 ≤ (image.width + 3) / 4 := by omega
    exact Nat.mul_pos b1 b2
  unfold encodePayload
  by_cases h1 : k = 1
  · rw [if_pos h1, compressRAW1_length]
    omega
  · rw [if_neg h1]
    by_cases h2 : k = 2
    · rw [if_pos h2]
      by_cases hp1 : pf = 1
      · rw [if_pos hp1, compressDXT3_length]
        omega
      · rw [if_neg hp1]
        by_cases hp7 : pf = 7
        · rw [if_pos hp7, compressDXT5_length]
          omega
        · rw [if_neg hp7, compressDXT1_length]
          omega
    · rw [if_neg h2, compressRAW3_length]
      omega

theorem encodePayload_lt (k pf asz : Nat) (image : DecodedImage)
    (hw : image.width ≤ 16384) (hh : image.height ≤ 16384) :
    (encodePayload k pf asz image).length < 4294967296 := by
  have hn : image.width * image.height ≤ 268435456 := Nat.mul_le_mul hw hh
  have hb : (image.height + 3) / 4 * ((image.width + 3) / 4) ≤ 16777216 := by
    have b1 : (image.height + 3) / 4 ≤ 4096 := by omega
    have b2 : (image.width + 3) / 4 ≤ 4096 := by omega
    exact Nat.mul_le_mul b1 b2
  have ha := alphaPlane_length_le image.pixels (image.width * image.height) asz
  unfold encodePayload
  by_cases h1 : k = 1
  · rw [if_pos h1, compressRAW1_length]
    omega
  · rw [if_neg h1]
    by_cases h2 : k = 2
    · rw [if_pos h2]
      by_cases hp1 : pf = 1
      · rw [if_pos hp1, compressDXT3_length]
        omega
      · rw [if_neg hp1]
        by_cases hp7 : pf = 7
        · rw [if_pos hp7, compressDXT5_length]
          omega
        · rw [if_neg hp7, compressDXT1_length]
          omega
    · rw [if_neg h2, compressRAW3_length]
      omega

/-! Decoding a freshly serialized single-level container recovers the
encoded dimensions and a 4-bytes-per-pixel buffer. -/

theorem decode_encodeBody (img : DecodedImage) (opts : BLPEncodeOptions)
    (sel : Nat × Nat × Nat)
    (hmips : opts.generateMipmaps = false)
    (hw32 : img.width < 4294967296) (hh32 : img.height < 4294967296)
    (hsel1 : sel.1 = 1 ∨ sel.1 = 2 ∨ sel.1 = 3)
    (hpl1 : 1 ≤ (encodePayload sel.1 sel.2.2 sel.2.1 img).length)
    (hpl2 : (encodePayload sel.1 sel.2.2 sel.2.1 img).length < 4294967296) :
    ∃ img2, decodeBlpData (encodeBody img opts sel) = .ok img2 ∧
      img2.width = img.width ∧ img2.height = img.height ∧
      img2.pixels.length = 4 * (img.width * img.height) := by
  have hpays : encodePayloads img opts sel =
      [encodePayload sel.1 sel.2.2 sel.2.1 img] := by
    unfold encodePayloads encodeMips
    rw [hmips]
    rfl
  have hoffsD : ∀ i : Nat, i < 16 → (encodeOffs img opts sel).getD i 0 =
      if i = 0 then 148 + (encodePaletteBytes img sel).length else 0 := by
    intro i hi
    unfold encodeOffs
    rw [getD_map_range hi, hpays]
    by_cases h0 : i = 0
    · subst h0
      rw [if_pos (by simp), if_pos rfl]
      simp
    · rw [if_neg (by simp only [List.length_cons, List.length_nil]; omega),
        if_neg h0]
  have hszsD : ∀ i : Nat, i < 16 → (encodeSzs img opts sel).getD i 0 =
      if i = 0 then (encodePayload sel.1 sel.2.2 sel.2.1 img).length else 0 := by
    intro i hi
    unfold encodeSzs
    rw [getD_map_range hi, hpays]
    by_cases h0 : i = 0
    · subst h0
      rw [if_pos (by simp), if_pos rfl]
      simp
    · rw [if_neg (by simp only [List.length_cons, List.length_nil]; omega),
        if_neg h0]
  have hlen16o : (encodeOffs img opts sel).length = 16 := by
    unfold encodeOffs
    rw [List.length_map, List.length_range]
  have hlen16s : (encodeSzs img opts sel).length = 16 := by
    unfold encodeSzs
    rw [List.length_map, List.length_range]
  have hFlen : (((encodeOffs img opts sel).map u32le).flatten).length = 64 := by
    rw [length_flatten_uniform (k := 4) (fun l hl => by
      rcases List.mem_map.mp hl with ⟨x, _, rfl⟩
      rfl), List.length_map, hlen16o]
  have hb2 : encodeBody img opts sel =
      [66, 76, 80, 50] ++ (u32le 1 ++ ([sel.1 % 256, sel.2.1 % 256, sel.2.2 % 256,
        if opts.generateMipmaps then 1 else 0] ++ (u32le img.width ++ (u32le img.height ++
        (((encodeOffs img opts sel).map u32le).flatten ++
        (((encodeSzs img opts sel).map u32le).flatten ++
        (encodePaletteBytes img sel ++ (encodePayloads img opts sel).flatten))))))) := rfl
  have hreadoffs : ∀ i : Nat, i < 16 →
      readU32 (encodeBody img opts sel) (20 + 4 * i) =
        (encodeOffs img opts sel).getD i 0 % 4294967296 := by
    intro i hi
    rw [hb2]
    rw [show 20 + 4 * i = 4 + (16 + 4 * i) from by ring,
      readU32_append_right _ _ _ _ (by rfl),
      show 16 + 4 * i = 4 + (12 + 4 * i) from by ring,
      readU32_append_right _ _ _ _ (by rfl),
      show 12 + 4 * i = 4 + (8 + 4 * i) from by ring,
      readU32_append_right _ _ _ _ (by rfl),
      show 8 + 4 * i = 4 + (4 + 4 * i) from by ring,
      readU32_append_right _ _ _ _ (u32le_length img.width),
      readU32_append_right _ _ _ _ (u32le_length img.height)]
    exact readU32_table _ _ i (by omega)
  have hreadszs : ∀ i : Nat, i < 16 →
      readU32 (encodeBody img opts sel) (84 + 4 * i) =
        (encodeSzs img opts sel).getD i 0 % 4294967296 := by
    intro i hi
    rw [hb2]
    rw [show 84 + 4 * i = 4 + (80 + 4 * i) from by ring,
      readU32_append_right _ _ _ _ (by rfl),
      show 80 + 4 * i = 4 + (76 + 4 * i) from by ring,
      readU32_append_right _ _ _ _ (by rfl),
      show 76 + 4 * i = 4 + (72 + 4 * i) from by ring,
      readU32_append_right _ _ _ _ (by rfl),
      show 72 + 4 * i = 4 + (68 + 4 * i) from by ring,
      readU32_append_right _ _ _ _ (u32le_length img.width),
      show 68 + 4 * i = 4 + (64 + 4 * i) from by ring,
      readU32_append_right _ _ _ _ (u32le_length img.height),
      show 64 + 4 * i = 64 + 4 * i from rfl,
      readU32_append_right _ _ _ _ hFlen]
    exact readU32_table _ _ i (by omega)
  have h8 : byteAt (encodeBody img opts sel) 8 = sel.1 % 256 % 256 := rfl
  have hwread : readU32 (encodeBody img opts sel) 12 = img.width := by
    have h : readU32 (encodeBody img opts sel) 12 =
        img.width % 256 % 256 + 256 * (img.width / 256 % 256 % 256) +
          65536 * (img.width / 65536 % 256 % 256) +
          16777216 * (img.width / 16777216 % 256 % 256) := rfl
    rw [h]
    omega
  have hhread : readU32 (encodeBody img opts sel) 16 = img.height := by
    have h : readU32 (encodeBody img opts sel) 16 =
        img.height % 256 % 256 + 256 * (img.height / 256 % 256 % 256) +
          65536 * (img.height / 65536 % 256 % 256) +
          16777216 * (img.height / 16777216 % 256 % 256) := rfl
    rw [h]
    omega
  have hpayflat : ((encodePayloads img opts sel).flatten).length =
      (encodePayload sel.1 sel.2.2 sel.2.1 img).length := by
    rw [hpays]
    simp
  have hGlen : (((encodeSzs img opts sel).map u32le).flatten).length = 64 := by
    rw [length_flatten_uniform (k := 4) (fun l hl => by
      rcases List.mem_map.mp hl with ⟨x, _, rfl⟩
      rfl), List.length_map, hlen16s]
  have hblen : (encodeBody img opts sel).length =
      148 + (encodePaletteBytes img sel).length +
        (encodePayload sel.1 sel.2.2 sel.2.1 img).length := by
    rw [hb2]
    simp only [List.length_append, List.length_cons, List.length_nil, u32le_length]
    rw [hFlen, hGlen, hpayflat]
    omega
  have holt : 148 + (encodePaletteBytes img sel).length < 4294967296 := by
    rw [encodePaletteBytes_length]
    split <;> omega
  have hparse2 : parseBlpHeader (encodeBody img opts sel) = .ok
      (BLPHeader.mk [66, 76, 80, 50] (readU32 (encodeBody img opts sel) 4)
        (byteAt (encodeBody img opts sel) 8) (byteAt (encodeBody img opts sel) 9)
        (byteAt (encodeBody img opts sel) 10) (byteAt (encodeBody img opts sel) 11)
        img.width img.height
        ((List.range 16).map (fun i => readU32 (encodeBody img opts sel) (20 + 4 * i)))
        ((List.range 16).map (fun i => readU32 (encodeBody img opts sel) (84 + 4 * i)))) := by
    unfold parseBlpHeader
    rw [if_neg (not_not_intro (show ((encodeBody img opts sel).take 4).map (· % 256) =
      [66, 76, 80, 50] from rfl))]
    rw [if_neg (by omega)]
    rw [hwread, hhread]
    rw [show ((encodeBody img opts sel).take 4).map (· % 256) =
      [66, 76, 80, 50] from rfl]
  have hoffslist : (List.range 16).map
      (fun i => readU32 (encodeBody img opts sel) (20 + 4 * i)) =
      (148 + (encodePaletteBytes img sel).length) ::
        [0, 0, 0, 0, 0, 0, 0, 0, 0, 0, 0, 0, 0, 0, 0] := by
    apply List.ext_getElem (by simp)
    intro j h1 h2
    simp only [List.getElem_map, List.getElem_range]
    rw [hreadoffs j (by simpa using h1), hoffsD j (by simpa using h1)]
    have hj16 : j < 16 := by simpa using h1
    interval_cases j
    · have h := Nat.mod_eq_of_lt holt
      simpa using h
    all_goals rfl
  have hszslist : (List.range 16).map
      (fun i => readU32 (encodeBody img opts sel) (84 + 4 * i)) =
      (encodePayload sel.1 sel.2.2 sel.2.1 img).length ::
        [0, 0, 0, 0, 0, 0, 0, 0, 0, 0, 0, 0, 0, 0, 0] := by
    apply List.ext_getElem (by simp)
    intro j h1 h2
    simp only [List.getElem_map, List.getElem_range]
    rw [hreadszs j (by simpa using h1), hszsD j (by simpa using h1)]
    have hj16 : j < 16 := by simpa using h1
    interval_cases j
    · have h := Nat.mod_eq_of_lt hpl2
      simpa using h
    all_goals rfl
  have hextract : extractMipmaps (encodeBody img opts sel)
      (BLPHeader.mk [66, 76, 80, 50] (readU32 (encodeBody img opts sel) 4)
        (byteAt (encodeBody img opts sel) 8) (byteAt (encodeBody img opts sel) 9)
        (byteAt (encodeBody img opts sel) 10) (byteAt (encodeBody img opts sel) 11)
        img.width img.height
        ((List.range 16).map (fun i => readU32 (encodeBody img opts sel) (20 + 4 * i)))
        ((List.range 16).map (fun i => readU32 (encodeBody img opts sel) (84 + 4 * i)))) =
      .ok [BLPMipmapData.mk img.width img.height
        (148 + (encodePaletteBytes img sel).length)
        (encodePayload sel.1 sel.2.2 sel.2.1 img).length
        (((encodeBody img opts sel).drop
            (148 + (encodePaletteBytes img sel).length)).take
          (encodePayload sel.1 sel.2.2 sel.2.1 img).length)] := by
    unfold extractMipmaps
    dsimp only
    rw [hoffslist, hszslist]
    have hzip : (((148 + (encodePaletteBytes img sel).length) ::
        [0, 0, 0, 0, 0, 0, 0, 0, 0, 0, 0, 0, 0, 0, 0]).take 16).zip
        ((((encodePayload sel.1 sel.2.2 sel.2.1 img).length) ::
        [0, 0, 0, 0, 0, 0, 0, 0, 0, 0, 0, 0, 0, 0, 0]).take 16) =
        (148 + (encodePaletteBytes img sel).length,
          (encodePayload sel.1 sel.2.2 sel.2.1 img).length) ::
          List.replicate 15 (0, 0) := rfl
    rw [hzip]
    show extractAux _ (_ :: _) 0 img.width img.height = _
    unfold extractAux
    rw [if_pos ⟨by omega, by omega⟩]
    rw [if_neg (by rw [hblen]; omega)]
    rw [extractAux_zeros]
  rcases hsel1 with hs | hs | hs
  · have hc8 : byteAt (encodeBody img opts sel) 8 = 1 := by
      rw [h8, hs]
    unfold decodeBlpData
    rw [hparse2]
    dsimp only
    rw [hextract]
    dsimp only
    rw [hc8, if_pos rfl]
    exact ⟨_, rfl, (decompressRAW1_shape _ _ _ _ _).1,
      (decompressRAW1_shape _ _ _ _ _).2.1, (decompressRAW1_shape _ _ _ _ _).2.2⟩
  · have hc8 : byteAt (encodeBody img opts sel) 8 = 2 := by
      rw [h8, hs]
    unfold decodeBlpData
    rw [hparse2]
    dsimp only
    rw [hextract]
    dsimp only
    rw [hc8, if_neg (by omega), if_pos rfl]
    by_cases hpf1 : byteAt (encodeBody img opts sel) 10 = 1
    · rw [if_pos hpf1]
      exact ⟨_, rfl, (decompressDXT3_shape _ _ _).1,
        (decompressDXT3_shape _ _ _).2.1, (decompressDXT3_shape _ _ _).2.2⟩
    · rw [if_neg hpf1]
      by_cases hpf7 : byteAt (encodeBody img opts sel) 10 = 7
      · rw [if_pos hpf7]
        exact ⟨_, rfl, (decompressDXT5_shape _ _ _).1,
          (decompressDXT5_shape _ _ _).2.1, (decompressDXT5_shape _ _ _).2.2⟩
      · rw [if_neg hpf7]
        exact ⟨_, rfl, (decompressDXT1_shape _ _ _).1,
          (decompressDXT1_shape _ _ _).2.1, (decompressDXT1_shape _ _ _).2.2⟩
  · have hc8 : byteAt (encodeBody img opts sel) 8 = 3 := by
      rw [h8, hs]
    unfold decodeBlpData
    rw [hparse2]
    dsimp only
    rw [hextract]
    dsimp only
    rw [hc8, if_neg (by omega), if_neg (by omega), if_pos rfl]
    exact ⟨_, rfl, (decompressRAW3_shape _ _ _).1,
      (decompressRAW3_shape _ _ _).2.1, (decompressRAW3_shape _ _ _).2.2⟩

/-! Facts recoverable from a successful decode. -/

theorem decodeBlpData_ok_shape {b : List Nat} {img : DecodedImage}
    (h : decodeBlpData b = .ok img) :
    img.pixels.length = 4 * (img.width * img.height) := by
  unfold decodeBlpData at h
  cases hp : parseBlpHeader b with
  | error e =>
    rw [hp] at h
    exact Except.noConfusion h
  | ok hdr =>
    rw [hp] at h
    dsimp only at h
    cases he : extractMipmaps b hdr with
    | error e =>
      rw [he] at h
      exact Except.noConfusion h
    | ok ls =>
      rw [he] at h
      cases ls with
      | nil => exact Except.noConfusion h
      | cons main rest =>
        dsimp only at h
        split_ifs at h
        · injection h with h2
          subst h2
          exact (decompressRAW1_shape _ _ _ _ _).2.2
        · injection h with h2
          subst h2
          exact (decompressDXT3_shape _ _ _).2.2
        · injection h with h2
          subst h2
          exact (decompressDXT5_shape _ _ _).2.2
        · injection h with h2
          subst h2
          exact (decompressDXT1_shape _ _ _).2.2
        · injection h with h2
          subst h2
          exact (decompressRAW3_shape _ _ _).2.2

theorem decodeBlpData_ok_compression {b : List Nat} {hdr : BLPHeader}
    {img : DecodedImage}
    (hp : parseBlpHeader b = .ok hdr) (h : decodeBlpData b = .ok img) :
    hdr.compression = 1 ∨ hdr.compression = 2 ∨ hdr.compression = 3 := by
  unfold decodeBlpData at h
  rw [hp] at h
  dsimp only at h
  cases he : extractMipmaps b hdr with
  | error e =>
    rw [he] at h
    exact Except.noConfusion h
  | ok ls =>
    rw [he] at h
    cases ls with
    | nil => exact Except.noConfusion h
    | cons main rest =>
      dsimp only at h
      split_ifs at h with h1 h2 h3 h4 h5
      · exact Or.inl h1
      · exact Or.inr (Or.inl h2)
      · exact Or.inr (Or.inl h2)
      · exact Or.inr (Or.inl h2)
      · exact Or.inr (Or.inr h5)

/-- C1 (amended): for a container that parses and decodes successfully,
whose decoded image has power-of-two dimensions between 1 and 2^14, a
re-encode with options matching the header (same compression kind, alpha
depth, and format hint; defaults otherwise) succeeds, and decoding the
produced bytes again yields an image with the same width, the same
height, and the same pixel-buffer length as the first decode. -/
theorem C1_roundtrip (b : List Nat) (hdr : BLPHeader) (img : DecodedImage)
    (hparse : parseBlpHeader b = .ok hdr)
    (hdec : decodeBlpData b = .ok img)
    (a c : Nat) (ha : a ≤ 14) (hc : c ≤ 14)
    (hwp : img.width = 2 ^ a) (hhp : img.height = 2 ^ c)
    (opts : BLPEncodeOptions)
    (hopts : opts = { compression := hdr.compression, alphaSize := hdr.alphaSize,
                      preferredFormat := hdr.preferredFormat }) :
    ∃ b2 img2, encodeToBLP img opts = .ok b2 ∧ decodeBlpData b2 = .ok img2 ∧
      img2.width = img.width ∧ img2.height = img.height ∧
      img2.pixels.length = img.pixels.length := by
  have hoc : opts.compression = hdr.compression := by rw [hopts]
  have hog : opts.generateMipmaps = false := by rw [hopts]
  have hcomp := decodeBlpData_ok_compression hparse hdec
  have hshape := decodeBlpData_ok_shape hdec
  have hw1 : 1 ≤ img.width := by
    rw [hwp]
    exact Nat.one_le_two_pow
  have hh1 : 1 ≤ img.height := by
    rw [hhp]
    exact Nat.one_le_two_pow
  have hwle : img.width ≤ 16384 := by
    rw [hwp]
    calc 2 ^ a ≤ 2 ^ 14 := Nat.pow_le_pow_right (by norm_num) ha
      _ = 16384 := by norm_num
  have hhle : img.height ≤ 16384 := by
    rw [hhp]
    calc 2 ^ c ≤ 2 ^ 14 := Nat.pow_le_pow_right (by norm_num) hc
      _ = 16384 := by norm_num
  have hw32 : img.width < 4294967296 := by omega
  have hh32 : img.height < 4294967296 := by omega
  have hpw : jsPow2Check img.width = true := by
    rw [hwp]
    exact jsPow2Check_pow a ha
  have hph : jsPow2Check img.height = true := by
    rw [hhp]
    exact jsPow2Check_pow c hc
  rcases hcomp with h1 | h2 | h3
  · have hsel : (if opts.compression = 2 then dxtSelect opts img.pixels
        else (opts.compression, opts.alphaSize, opts.preferredFormat)) =
        (1, opts.alphaSize, opts.preferredFormat) := by
      rw [hoc, h1, if_neg (by norm_num)]
    have henc := encodeToBLP_ok img opts hpw hph
      (1, opts.alphaSize, opts.preferredFormat) hsel (Or.inl rfl)
    have hdec2 := decode_encodeBody img opts
      (1, opts.alphaSize, opts.preferredFormat) hog hw32 hh32 (Or.inl rfl)
      (encodePayload_pos _ _ _ img hw1 hh1) (encodePayload_lt _ _ _ img hwle hhle)
    rcases hdec2 with ⟨img2, hd2, hww, hhh, hlen⟩
    exact ⟨_, img2, henc, hd2, hww, hhh, by rw [hlen, hshape]⟩
  · have hsel : (if opts.compression = 2 then dxtSelect opts img.pixels
        else (opts.compression, opts.alphaSize, opts.preferredFormat)) =
        dxtSelect opts img.pixels := by
      rw [hoc, h2, if_pos rfl]
    have hfst := dxtSelect_fst opts img.pixels
    have henc := encodeToBLP_ok img opts hpw hph (dxtSelect opts img.pixels) hsel
      (Or.inr (Or.inl hfst))
    have hdec2 := decode_encodeBody img opts (dxtSelect opts img.pixels) hog
      hw32 hh32 (Or.inr (Or.inl hfst))
      (encodePayload_pos _ _ _ img hw1 hh1) (encodePayload_lt _ _ _ img hwle hhle)
    rcases hdec2 with ⟨img2, hd2, hww, hhh, hlen⟩
    exact ⟨_, img2, henc, hd2, hww, hhh, by rw [hlen, hshape]⟩
  · have hsel : (if opts.compression = 2 then dxtSelect opts img.pixels
        else (opts.compression, opts.alphaSize, opts.preferredFormat)) =
        (3, opts.alphaSize, opts.preferredFormat) := by
      rw [hoc, h3, if_neg (by norm_num)]
    have henc := encodeToBLP_ok img opts hpw hph
      (3, opts.alphaSize, opts.preferredFormat) hsel (Or.inr (Or.inr rfl))
    have hdec2 := decode_encodeBody img opts
      (3, opts.alphaSize, opts.preferredFormat) hog hw32 hh32 (Or.inr (Or.inr rfl))
      (encodePayload_pos _ _ _ img hw1 hh1) (encodePayload_lt _ _ _ img hwle hhle)
    rcases hdec2 with ⟨img2, hd2, hww, hhh, hlen⟩
    exact ⟨_, img2, henc, hd2, hww, hhh, by rw [hlen, hshape]⟩

set_option maxRecDepth 40000 in
/-- Witness for C1 at a concrete 1x1 uncompressed (kind 3) container. -/
theorem C1_roundtrip_witness :
    parseBlpHeader ([66, 76, 80, 50] ++ u32le 1 ++ [3, 0, 0, 0] ++ u32le 1 ++
        u32le 1 ++ u32le 148 ++ List.replicate 60 0 ++ u32le 4 ++
        List.replicate 60 0 ++ [10, 20, 30, 40]) =
      .ok (BLPHeader.mk [66, 76, 80, 50] 1 3 0 0 0 1 1
        (148 :: List.replicate 15 0) (4 :: List.replicate 15 0)) ∧
    decodeBlpData ([66, 76, 80, 50] ++ u32le 1 ++ [3, 0, 0, 0] ++ u32le 1 ++
        u32le 1 ++ u32le 148 ++ List.replicate 60 0 ++ u32le 4 ++
        List.replicate 60 0 ++ [10, 20, 30, 40]) =
      .ok (DecodedImage.mk 1 1 [30, 20, 10, 40]) ∧
    (∃ b2 img2,
      encodeToBLP (DecodedImage.mk 1 1 [30, 20, 10, 40])
          (BLPEncodeOptions.mk 3 0 0 false 0 ResizeMode.padCenter true true
            (FillColor.mk 0 0 0 0)) = .ok b2 ∧
      decodeBlpData b2 = .ok img2 ∧
      img2.width = (DecodedImage.mk 1 1 [30, 20, 10, 40]).width ∧
      img2.height = (DecodedImage.mk 1 1 [30, 20, 10, 40]).height ∧
      img2.pixels.length = (DecodedImage.mk 1 1 [30, 20, 10, 40]).pixels.length) :=
  ⟨by decide, by decide,
    C1_roundtrip
      ([66, 76, 80, 50] ++ u32le 1 ++ [3, 0, 0, 0] ++ u32le 1 ++ u32le 1 ++
        u32le 148 ++ List.replicate 60 0 ++ u32le 4 ++ List.replicate 60 0 ++
        [10, 20, 30, 40])
      (BLPHeader.mk [66, 76, 80, 50] 1 3 0 0 0 1 1
        (148 :: List.replicate 15 0) (4 :: List.replicate 15 0))
      (DecodedImage.mk 1 1 [30, 20, 10, 40])
      (by decide) (by decide) 0 0 (by decide) (by decide) (by decide) (by decide)
      (BLPEncodeOptions.mk 3 0 0 false 0 ResizeMode.padCenter true true
        (FillColor.mk 0 0 0 0)) (by decide)⟩

set_option maxRecDepth 40000 in
/-- C1 counterexample to the claim as stated: a valid width-0, height-0
container decodes to an empty image, but re-encoding that image writes a
zero-length payload into every chain slot, so the second decode fails
with the empty-chain error instead of producing an image. -/
theorem C1_roundtrip_counterexample :
    decodeBlpData ([66, 76, 80, 50] ++ u32le 1 ++ [3, 0, 0, 0] ++ u32le 0 ++
        u32le 0 ++ u32le 148 ++ List.replicate 60 0 ++ u32le 4 ++
        List.replicate 60 0 ++ [10, 20, 30, 40]) =
      .ok (DecodedImage.mk 0 0 []) ∧
    (∃ b2,
      encodeToBLP (DecodedImage.mk 0 0 [])
          (BLPEncodeOptions.mk 3 0 0 false 0 ResizeMode.padCenter true true
            (FillColor.mk 0 0 0 0)) = .ok b2 ∧
      decodeBlpData b2 = .error .emptyChain) :=
  ⟨by decide,
    ⟨encodeBody (DecodedImage.mk 0 0 [])
        (BLPEncodeOptions.mk 3 0 0 false 0 ResizeMode.padCenter true true
          (FillColor.mk 0 0 0 0)) (3, 0, 0),
      by decide, by decide⟩⟩

end Blp